import Mathlib

/-!
Verification development for the TrainLoop change-intelligence pipeline.

This file gives a shallow embedding, in Lean 4, of the core of the
TrainLoop backend (TypeScript sources `src/services/diffHelper.ts`,
`src/services/explanationGenerator.ts`, `src/services/scheduler.ts`,
`src/index.ts`, `src/types.ts`) and proves properties of that embedding.

Conventions of the embedding:
* JavaScript strings are modelled as Lean `String` / `List Char`; JS
  `String.prototype.length` counts UTF-16 code units while Lean counts
  characters — identical on the ASCII data handled here.
* The handful of regular expressions in the source are translated into
  explicit, structurally recursive character scanners; each translation is
  documented next to its definition with the regex it implements.
* External effects (Google Drive listing/download, SQLite writes, the
  OpenAI chat call, wall-clock time, uuid generation) are modelled as
  explicit parameters: fallible calls as `Except String _` outcomes,
  time as a fixed string, uuids as a threaded counter.
* JS truthiness on optional strings/objects is modelled explicitly
  (`jsTruthyStr`, …): `undefined`/`null`/`""` are falsy.
-/

namespace TrainLoop

/-! ## JavaScript string primitives (character-level helpers)

These model the JS string operations used by the source: `split` with the
specific regexes that appear there, `trim`, `toLowerCase`, `includes`,
`indexOf`, `startsWith`, `endsWith` and first-occurrence `replace`.
All are structurally recursive so that concrete instances reduce in the
kernel. -/

/-- whitespace class of JS `\s` (restricted to the ASCII whitespace
characters, which are the only ones occurring in this code base). -/
def isWS (c : Char) : Bool :=
  c = ' ' || c = '\t' || c = '\n' || c = '\x0b' || c = '\x0c' || c = '\r'

/-- JS `String.prototype.toLowerCase`, ASCII range (`A`-`Z` shift by 32;
the source's data is ASCII). -/
def jsToLowerChar (c : Char) : Char :=
  if 'A' ≤ c ∧ c ≤ 'Z' then Char.ofNat (c.toNat + 32) else c

def lowerL (l : List Char) : List Char := l.map jsToLowerChar

def jsToLower (s : String) : String := String.mk (lowerL s.data)

/-- JS `String.prototype.trim` (both ends, `\s` class). -/
def trimL (l : List Char) : List Char :=
  ((l.dropWhile isWS).reverse.dropWhile isWS).reverse

def jsTrim (s : String) : String := String.mk (trimL s.data)

/-- first index of `needle` in `hay` (JS `indexOf`, as `Option`); the empty
needle matches at index 0, as in JS. -/
def indexOfL (needle : List Char) : List Char → Option Nat
  | [] => if needle.isEmpty then some 0 else none
  | c :: t =>
    if needle.isPrefixOf (c :: t) then some 0
    else (indexOfL needle t).map (· + 1)

/-- JS `String.prototype.includes` (substring containment). -/
def containsL (needle : List Char) : List Char → Bool
  | [] => needle.isEmpty
  | c :: t => needle.isPrefixOf (c :: t) || containsL needle t

def jsIncludes (s sub : String) : Bool := containsL sub.data s.data

def jsStartsWith (s t : String) : Bool := t.data.isPrefixOf s.data

/-- JS `String.prototype.indexOf`, returning `-1` on a miss. -/
def jsIndexOf (s sub : String) : Int :=
  match indexOfL sub.data s.data with
  | some k => (k : Int)
  | none => -1

/-- JS `s.substring(0, e)` where negative `e` is clamped to 0. -/
def jsSubstringTo (s : String) (e : Int) : List Char := s.data.take e.toNat

/-- JS non-regex `String.prototype.replace` (first occurrence only). -/
def replaceFirstL (hay needle repl : List Char) : List Char :=
  match indexOfL needle hay with
  | some k => hay.take k ++ repl ++ hay.drop (k + needle.length)
  | none => hay

def jsReplaceFirst (s needle repl : String) : String :=
  String.mk (replaceFirstL s.data needle.data repl.data)

/-- JS truthiness of an optional string: `undefined` and `""` are falsy. -/
def jsTruthyStr : Option String → Bool
  | none => false
  | some s => s ≠ ""

/-- JS `a || b` on an optional string. -/
def jsOrStr (o : Option String) (d : String) : String :=
  if jsTruthyStr o then o.getD d else d

mutual
/-- splitter for JS `split(/\s+/)`-style "split on maximal runs of `p`"
(`splitRunsGo` is mid-token, `splitRunsSkip` is inside a separator run);
leading/trailing separators yield empty tokens, exactly as JS `split`. -/
def splitRunsGo (p : Char → Bool) : List Char → List Char → List (List Char)
  | [], acc => [acc.reverse]
  | c :: t, acc =>
    if p c then acc.reverse :: splitRunsSkip p t
    else splitRunsGo p t (c :: acc)

def splitRunsSkip (p : Char → Bool) : List Char → List (List Char)
  | [] => [[]]
  | c :: t => if p c then splitRunsSkip p t else splitRunsGo p t [c]
end

def splitRuns (p : Char → Bool) (l : List Char) : List (List Char) :=
  splitRunsGo p l []

/-- JS `split('\n')` (single-character separator, keeps empty tokens). -/
def splitChar (sep : Char) : List Char → List (List Char)
  | [] => [[]]
  | c :: t =>
    if c = sep then [] :: splitChar sep t
    else
      match splitChar sep t with
      | [] => [[c]]
      | h :: r => (c :: h) :: r

/-- head-of-list whitespace test (used to implement lookahead). -/
def headIsWS : List Char → Bool
  | [] => false
  | c :: _ => isWS c

mutual
/-- scanner for `diffHelper.ts` `text.split(/(?<=[.!?])\s+/)`: a separator
is a maximal whitespace run immediately preceded by `.`, `!` or `?`; the
punctuation mark stays with the preceding token. -/
def sentGo : List Char → List Char → List (List Char)
  | [], acc => [acc.reverse]
  | c :: t, acc =>
    if (c = '.' || c = '!' || c = '?') && headIsWS t then
      (c :: acc).reverse :: sentSkip t
    else sentGo t (c :: acc)

def sentSkip : List Char → List (List Char)
  | [] => [[]]
  | c :: t => if isWS c then sentSkip t else sentGo t [c]
end

/-- scanner for `diffHelper.ts` `text.split(/\n\s*\n/)`.  A match of
`\n\s*\n` inside a maximal whitespace run is the span from the first to
the last newline of the run (the regex is greedy and backtracks to the
last `\n`); whitespace of the run before the first newline stays with the
preceding token and whitespace after the last newline starts the next
token.  `accRev` is the current token and `wsRev` the pending whitespace
run, both reversed. -/
def splitParasGo : List Char → List Char → List Char → List (List Char)
  | [], accRev, wsRev =>
    if 2 ≤ wsRev.count '\n' then
      [accRev.reverse ++ wsRev.reverse.takeWhile (fun c => ¬(c = '\n')),
       (wsRev.takeWhile (fun c => ¬(c = '\n'))).reverse]
    else [accRev.reverse ++ wsRev.reverse]
  | c :: t, accRev, wsRev =>
    if isWS c then splitParasGo t accRev (c :: wsRev)
    else
      if 2 ≤ wsRev.count '\n' then
        (accRev.reverse ++ wsRev.reverse.takeWhile (fun x => ¬(x = '\n'))) ::
          splitParasGo t (c :: (wsRev.takeWhile (fun x => ¬(x = '\n')))) []
      else splitParasGo t (c :: (wsRev ++ accRev)) []

/-- keep-first deduplication, as JS `[...new Set(xs)]`. -/
def dedupKeepFirst : List String → List String → List String
  | _, [] => []
  | seen, x :: t =>
    if seen.contains x then dedupKeepFirst seen t
    else x :: dedupKeepFirst (x :: seen) t

/-! ## `diffHelper.ts` — data model and fixed vocabulary -/

inductive DiffType
  | added
  | removed
  | modified
deriving DecidableEq, Repr

/-- `DiffChunk` of `diffHelper.ts` (the optional `lineNumber` field is never
written by the source and is omitted). -/
structure DiffChunk where
  type : DiffType
  before : Option String
  after : Option String
  location : Option String
deriving DecidableEq, Repr

inductive ReqCategory
  | step
  | obligation
  | system
  | training
  | storage
  | responsibility
deriving DecidableEq, Repr

structure RequirementStatement where
  text : String
  beforeText : Option String
  afterText : Option String
  category : ReqCategory
  appliesTo : Option String
  location : Option String
  isNew : Bool
deriving DecidableEq, Repr

structure DiffSummary where
  added : Nat
  removed : Nat
  modified : Nat
deriving DecidableEq, Repr

structure DiffResult where
  chunks : List DiffChunk
  summary : DiffSummary
  highRiskPhrases : List String
  hasHighRiskChanges : Bool
  isProcedural : Bool
  requirements : List RequirementStatement
deriving DecidableEq, Repr

def HIGH_RISK_PHRASES : List String :=
  ["sell", "share", "disclose", "third party", "transfer", "retain", "collect",
   "consent", "opt out", "opt-out", "marketing", "undisclosed", "PII", "personal data",
   "personal information", "data breach", "security incident", "confidential",
   "terminate", "penalty", "fine", "lawsuit", "liability", "waive", "forfeit"]

def OBLIGATION_VERBS : List String :=
  ["must", "shall", "required", "need to", "needs to", "have to", "has to",
   "will be required", "is required", "are required", "mandatory", "obligated",
   "responsible for", "expected to", "ensure", "ensure that"]

def SYSTEM_KEYWORDS : List String :=
  ["system", "software", "platform", "tool", "application", "database",
   "electronic", "digital", "online", "portal", "Google Drive", "SharePoint",
   "CRM", "ERP", "LMS", "intranet"]

def TRAINING_KEYWORDS : List String :=
  ["training", "trained", "certification", "certified", "course", "learning",
   "onboarding", "orientation", "workshop", "seminar"]

def STORAGE_KEYWORDS : List String :=
  ["store", "stored", "storage", "archive", "retain", "retention", "file",
   "folder", "directory", "document", "record", "backup"]

/-! ## `diffHelper.ts` — helper functions -/

/-- `splitIntoParagraphs`: split on `/\n\s*\n/`, trim each part, drop
empties. -/
def splitIntoParagraphs (text : String) : List String :=
  (((splitParasGo text.data [] []).map trimL).filter (fun p => 0 < p.length)).map
    String.mk

/-- `detectHighRiskPhrases`: case-insensitive substring scan of the fixed
phrase list (source lowercases both sides and dedups the result). -/
def detectHighRiskPhrases (text : String) : List String :=
  dedupKeepFirst []
    (HIGH_RISK_PHRASES.filter fun phrase =>
      jsIncludes (jsToLower text) (jsToLower phrase))

/-- `truncateExcerpt`: word-split on `/\s+/`, keep at most `maxWords` words
(adding an ellipsis). -/
def truncateExcerpt (text : String) (maxWords : Nat := 30) : String :=
  let words := splitRuns isWS text.data
  if words.length ≤ maxWords then text
  else String.mk (List.intercalate [' '] (words.take maxWords)) ++ "..."

def isUpperAlpha (c : Char) : Bool := 'A' ≤ c && c ≤ 'Z'
def isDigitCh (c : Char) : Bool := '0' ≤ c && c ≤ '9'
def isAlphaCh (c : Char) : Bool :=
  ('A' ≤ c && c ≤ 'Z') || ('a' ≤ c && c ≤ 'z')
/-- JS `\w` class `[A-Za-z0-9_]`. -/
def isWordChar (c : Char) : Bool := isAlphaCh c || isDigitCh c || c = '_'

/-- regex `/^[A-Z0-9]/` on a line. -/
def lineStartsUpperOrDigit : List Char → Bool
  | [] => false
  | c :: _ => isUpperAlpha c || isDigitCh c

/-- regex `/^[A-Z][A-Z\s]+$/`: an uppercase letter then one or more
uppercase letters / whitespace, matching the whole line. -/
def lineIsAllCaps : List Char → Bool
  | [] => false
  | c :: rest =>
    isUpperAlpha c && !rest.isEmpty && rest.all (fun x => isUpperAlpha x || isWS x)

/-- regex `/^\d+\./`: one or more digits then a literal dot. -/
def lineIsNumbered (l : List Char) : Bool :=
  let ds := l.takeWhile isDigitCh
  !ds.isEmpty &&
    match l.drop ds.length with
    | '.' :: _ => true
    | _ => false

/-- regex `/^#{1,3}\s/`: one to three `#` then whitespace (four or more
`#` cannot match, since positions 1–3 are then followed by `#`). -/
def lineIsMarkdownHeading (l : List Char) : Bool :=
  let hs := (l.takeWhile (fun c => c = '#')).length
  1 ≤ hs && hs ≤ 3 && headIsWS (l.drop hs)

/-- `line.replace(/^#+\s*/, '')`: strip a leading run of `#` and the
whitespace after it (only when the line starts with `#`). -/
def stripHashes (l : List Char) : List Char :=
  match l with
  | '#' :: _ => (l.dropWhile (fun c => c = '#')).dropWhile isWS
  | _ => l

/-- `line.replace(/:$/, '')`: drop one trailing colon. -/
def stripTrailingColon (l : List Char) : List Char :=
  match l.getLast? with
  | some ':' => l.dropLast
  | _ => l

/-- backward line scan of `findNearestHeading` (the source iterates the
lines of the prefix from last to first; here the list is pre-reversed). -/
def findHeadingIn : List (List Char) → Option String
  | [] => none
  | l :: rest =>
    let line := trimL l
    if 0 < line.length && line.length < 100 &&
        lineStartsUpperOrDigit line &&
        (decide (line.getLast? = some ':') || lineIsAllCaps line ||
          lineIsNumbered line || lineIsMarkdownHeading line) then
      some (String.mk (stripTrailingColon (stripHashes line)))
    else findHeadingIn rest

/-- `findNearestHeading(text, position)`. -/
def findNearestHeading (text : String) (position : Int) : Option String :=
  findHeadingIn ((splitChar '\n' (jsSubstringTo text position)).reverse)

/-- scanner for the unanchored alternative `step\s*\d` of
`detectProceduralDocument`'s regex (applied to lowercased text; the
original regex carries the `i` flag). -/
def stepDigitAt (l : List Char) : Bool :=
  "step".data.isPrefixOf l &&
    match (l.drop 4).dropWhile isWS with
    | c :: _ => isDigitCh c
    | [] => false

def stepDigitScan : List Char → Bool
  | [] => false
  | c :: t => stepDigitAt (c :: t) || stepDigitScan t

/-- anchored alternative `^\s*\d+\.\s+[A-Z]` (with flags `im`: anchored at
a line start, and `[A-Z]` matches either case because of `i`). -/
def numberedLineAt (l : List Char) : Bool :=
  let l1 := l.dropWhile isWS
  let ds := l1.takeWhile isDigitCh
  !ds.isEmpty &&
    match l1.drop ds.length with
    | '.' :: l2 => headIsWS l2 &&
        match l2.dropWhile isWS with
        | c :: _ => isAlphaCh c
        | [] => false
    | _ => false

/-- scan every line start (string start and each position after `\n`). -/
def numberedLineScan : List Char → Bool
  | [] => false
  | c :: t => (c = '\n' && numberedLineAt t) || numberedLineScan t

/-- `detectProceduralDocument`: file-name/content keywords, or the regex
`/(?:step\s*\d|^\s*\d+\.\s+[A-Z])/im` on the content. -/
def detectProceduralDocument (fileName content : String) : Bool :=
  let lowerName := jsToLower fileName
  let lowerContent := jsToLower content
  if jsIncludes lowerName "sop" || jsIncludes lowerName "procedure" then true
  else if ["sop", "standard operating procedure", "procedure"].any
      (fun kw => jsIncludes lowerContent kw) then true
  else
    stepDigitScan (lowerL content.data) ||
    numberedLineAt content.data || numberedLineScan content.data

/-! ## `diffHelper.ts` — requirement extraction

The four `extractAppliesTo` regexes are translated into explicit matchers.
In every one of them the greedy sub-patterns are followed either by a
disjoint character class or by optional groups only, so no backtracking is
needed beyond the one explicit alternative (`(?:-facing)?`) handled
below. -/

/-- case-insensitive literal match at the head of `l`; returns the
consumed characters (original case) and the rest. -/
def matchLitCI (lit : String) (l : List Char) : Option (List Char × List Char) :=
  let n := lit.length
  let pre := l.take n
  if pre.length = n && decide (lowerL pre = lit.data) then some (pre, l.drop n)
  else none

/-- optional `s?` after a matched literal (case-insensitive, greedy). -/
def optPluralS : List Char × List Char → List Char × List Char
  | (consumed, c :: t) =>
    if jsToLowerChar c = 's' then (consumed ++ [c], t) else (consumed, c :: t)
  | (consumed, []) => (consumed, [])

/-- one alternative of `(?:\s+representatives?|\s+staff|\s+employees?|\s+personnel|\s+team)`
and of `(?:representatives?|staff|employees?|personnel|team)`: the role
literals in source order, each with its optional plural `s`. -/
def roleAltLits : List (String × Bool) :=
  [("representative", true), ("staff", false), ("employee", true),
   ("personnel", false), ("team", false)]

def matchRoleAlt (l : List Char) : Option (List Char) :=
  (roleAltLits.filterMap fun p =>
    match matchLitCI p.1 l with
    | some hit => some (if p.2 then (optPluralS hit).1 else hit.1)
    | none => none).head?

/-- regex 1: `/all\s+(\w+(?:\s+\w+)?(?:\s+representatives?|\s+staff|\s+employees?|\s+personnel|\s+team)?)/i`,
tried at one position; returns capture group 1. -/
def matchAppliesTo1 (l : List Char) : Option (List Char) :=
  match matchLitCI "all" l with
  | none => none
  | some (_, r) =>
    let ws := r.takeWhile isWS
    if ws.isEmpty then none
    else
      let r1 := r.drop ws.length
      let w1 := r1.takeWhile isWordChar
      if w1.isEmpty then none
      else
        let r2 := r1.drop w1.length
        let ws2 := r2.takeWhile isWS
        let w2 := (r2.drop ws2.length).takeWhile isWordChar
        let cap2 := if !ws2.isEmpty && !w2.isEmpty then ws2 ++ w2 else []
        let r3 := r2.drop cap2.length
        let ws3 := r3.takeWhile isWS
        let cap3 :=
          if ws3.isEmpty then []
          else
            match matchRoleAlt (r3.drop ws3.length) with
            | some alt => ws3 ++ alt
            | none => []
        some (w1 ++ cap2 ++ cap3)

/-- regex 2: `/(\w+(?:-facing)?\s+(?:representatives?|staff|employees?|personnel|team))/i`
at one position.  The optional `-facing` is tried greedily first and
dropped if the tail then fails (the only real backtracking point). -/
def matchAppliesTo2Tail (w pre rr : List Char) : Option (List Char) :=
  let ws := rr.takeWhile isWS
  if ws.isEmpty then none
  else
    match matchRoleAlt (rr.drop ws.length) with
    | some alt => some (w ++ pre ++ ws ++ alt)
    | none => none

def matchAppliesTo2 (l : List Char) : Option (List Char) :=
  let w := l.takeWhile isWordChar
  if w.isEmpty then none
  else
    let r := l.drop w.length
    match matchLitCI "-facing" r with
    | some (fc, r7) =>
      match matchAppliesTo2Tail w fc r7 with
      | some cap => some cap
      | none => matchAppliesTo2Tail w [] r
    | none => matchAppliesTo2Tail w [] r

/-- regex 3: `/(?:responsible\s+for|assigned\s+to)\s+(\w+(?:\s+\w+)?)/i`
at one position; returns capture group 1 (which starts after the
whitespace that follows `for`/`to`). -/
def matchKeywordWs (kw1 kw2 : String) (l : List Char) : Option (List Char) :=
  match matchLitCI kw1 l with
  | none => none
  | some (_, r) =>
    let ws := r.takeWhile isWS
    if ws.isEmpty then none
    else
      match matchLitCI kw2 (r.drop ws.length) with
      | some (_, r2) => some r2
      | none => none

def matchAppliesTo3 (l : List Char) : Option (List Char) :=
  let rest :=
    match matchKeywordWs "responsible" "for" l with
    | some r => some r
    | none => matchKeywordWs "assigned" "to" l
  match rest with
  | none => none
  | some r =>
    let ws := r.takeWhile isWS
    if ws.isEmpty then none
    else
      let r1 := r.drop ws.length
      let w1 := r1.takeWhile isWordChar
      if w1.isEmpty then none
      else
        let r2 := r1.drop w1.length
        let ws2 := r2.takeWhile isWS
        let w2 := (r2.drop ws2.length).takeWhile isWordChar
        if !ws2.isEmpty && !w2.isEmpty then some (w1 ++ ws2 ++ w2) else some w1

/-- regex 4: `/(managers?|supervisors?|administrators?|leads?|directors?)/i`
at one position. -/
def matchAppliesTo4 (l : List Char) : Option (List Char) :=
  ([("manager", true), ("supervisor", true), ("administrator", true),
    ("lead", true), ("director", true)].filterMap fun p =>
      match matchLitCI p.1 l with
      | some hit => some ((optPluralS hit).1)
      | none => none).head?

/-- leftmost match of a single-position matcher (JS `String.match`
scans start positions left to right). -/
def scanFirst (m : List Char → Option (List Char)) : List Char → Option (List Char)
  | [] => none
  | c :: t =>
    match m (c :: t) with
    | some r => some r
    | none => scanFirst m t

/-- `extractAppliesTo`: the four role patterns in order, first match wins,
capture group 1 trimmed. -/
def extractAppliesTo (text : String) : Option String :=
  ([matchAppliesTo1, matchAppliesTo2, matchAppliesTo3, matchAppliesTo4].filterMap
    (fun m => (scanFirst m text.data).map (fun cap => String.mk (trimL cap)))).head?

/-- anchored regex `/^\s*(?:step\s*\d|\d+\.\s)/i` of
`categorizeRequirement`. -/
def startsStepPattern (text : String) : Bool :=
  let l1 := text.data.dropWhile isWS
  stepDigitAt (lowerL l1) ||
    (let ds := l1.takeWhile isDigitCh
     !ds.isEmpty &&
      match l1.drop ds.length with
      | '.' :: l2 => headIsWS l2
      | _ => false)

/-- `categorizeRequirement` (first match wins, in source order). -/
def categorizeRequirement (text : String) : ReqCategory :=
  let lowerText := jsToLower text
  if startsStepPattern text then ReqCategory.step
  else if TRAINING_KEYWORDS.any (fun kw => jsIncludes lowerText kw) then ReqCategory.training
  else if STORAGE_KEYWORDS.any (fun kw => jsIncludes lowerText kw) then ReqCategory.storage
  else if SYSTEM_KEYWORDS.any (fun kw => jsIncludes lowerText kw) then ReqCategory.system
  else if ["responsible", "assigned", "duty", "duties", "role"].any
      (fun kw => jsIncludes lowerText kw) then ReqCategory.responsibility
  else ReqCategory.obligation

def containsObligationVerb (text : String) : Bool :=
  OBLIGATION_VERBS.any fun verb => jsIncludes (jsToLower text) verb

def containsSystemKeyword (text : String) : Bool :=
  SYSTEM_KEYWORDS.any fun kw => jsIncludes (jsToLower text) kw

/-- the sentence filter shared by `extractRequirementSentences`. -/
def requirementSentenceFilter (s : String) : Bool :=
  containsObligationVerb s || containsSystemKeyword s ||
    TRAINING_KEYWORDS.any (fun kw => jsIncludes (jsToLower s) kw) ||
    STORAGE_KEYWORDS.any (fun kw => jsIncludes (jsToLower s) kw)

/-- sentence split `text.split(/(?<=[.!?])\s+/)`. -/
def splitSentences (text : String) : List String :=
  (sentGo text.data []).map String.mk

/-- `extractRequirementSentences`. -/
def extractRequirementSentences (text : String) : List String :=
  (splitSentences text).filter requirementSentenceFilter

/-- normalization used for the before/after sentence comparison:
`s.toLowerCase().trim()`. -/
def normSentence (s : String) : String := jsTrim (jsToLower s)

/-- requirements contributed by one chunk of
`extractRequirementsFromChunks` (the JS loop pushes one statement per
surviving sentence, in order; `chunk.after`/`chunk.before` are guarded by
JS truthiness, so `undefined` and `""` both disable a branch). -/
def chunkRequirements (chunk : DiffChunk) : List RequirementStatement :=
  match chunk.type, chunk.after with
  | DiffType.added, some a =>
    if a = "" then []
    else
      (extractRequirementSentences a).map fun sentence =>
        { text := sentence
          beforeText := none
          afterText := chunk.after
          category := categorizeRequirement sentence
          appliesTo := extractAppliesTo sentence
          location := chunk.location
          isNew := true }
  | DiffType.modified, some a =>
    if a = "" then []
    else
      let afterSentences := extractRequirementSentences a
      let beforeSentences :=
        if jsTruthyStr chunk.before then
          extractRequirementSentences (chunk.before.getD "")
        else []
      (afterSentences.filter fun sentence =>
        !(beforeSentences.any fun bs =>
          decide (normSentence bs = normSentence sentence))).map fun sentence =>
        { text := sentence
          beforeText := chunk.before
          afterText := chunk.after
          category := categorizeRequirement sentence
          appliesTo := extractAppliesTo sentence
          location := chunk.location
          isNew := true }
  | _, _ => []

/-- `extractRequirementsFromChunks` (the `previousContent`/`newContent`
parameters are unused by the source body and kept for signature
fidelity). -/
def extractRequirementsFromChunks (chunks : List DiffChunk)
    (_previousContent _newContent : String) : List RequirementStatement :=
  (chunks.map chunkRequirements).flatten

/-! ## `diffHelper.ts` — LCS matrix, backtracking, coalescing -/

/-- one row-update step of the dynamic program: given row `i` of the
table (`prevRow`) and the equality tests against `a[i]` (`xEq j` decides
`a[i] === b[j]`), compute row `i+1` as a function of the column. -/
def lcsRowNext (prevRow : Nat → Nat) (xEq : Nat → Bool) : Nat → Nat
  | 0 => 0
  | j + 1 =>
    if xEq j then prevRow j + 1
    else max (prevRow (j + 1)) (lcsRowNext prevRow xEq j)

/-- `computeLCSMatrix`: the source fills an `(m+1) × (n+1)` table row by
row with `dp[i][j] = dp[i-1][j-1] + 1` on a match and
`max(dp[i-1][j], dp[i][j-1])` otherwise; `lcsMatrix a b i j` is the entry
`dp[i][j]` (row `i` is represented as a function of the column, filled
from row `i-1` exactly as the loop does).  Out-of-range accesses use the
`getD` default, but the source only ever consults entries in range. -/
def lcsMatrix (a b : List String) : Nat → Nat → Nat
  | 0 => fun _ => 0
  | i + 1 => lcsRowNext (lcsMatrix a b i) (fun j => a.getD i "" == b.getD j "")

/-- the recurrence of the source's inner loop, verbatim. -/
theorem lcsMatrix_succ_succ (a b : List String) (i j : Nat) :
    lcsMatrix a b (i + 1) (j + 1) =
      if a.getD i "" = b.getD j "" then lcsMatrix a b i j + 1
      else max (lcsMatrix a b i (j + 1)) (lcsMatrix a b (i + 1) j) := by
  have hx : lcsMatrix a b (i + 1) (j + 1) =
      if a.getD i "" == b.getD j "" then lcsMatrix a b i j + 1
      else max (lcsMatrix a b i (j + 1)) (lcsMatrix a b (i + 1) j) := rfl
  rw [hx]
  by_cases h : a.getD i "" = b.getD j ""
  · rw [if_pos (beq_iff_eq.mpr h), if_pos h]
  · rw [if_neg (by simpa using h), if_neg h]

theorem lcsMatrix_zero_left (a b : List String) (j : Nat) :
    lcsMatrix a b 0 j = 0 := rfl

theorem lcsMatrix_zero_right (a b : List String) (i : Nat) :
    lcsMatrix a b i 0 = 0 := by
  cases i <;> rfl

/-- edit-script operations produced by `backtrackDiff` (the `indexA` /
`indexB` annotations of the source are not consumed by any caller and are
omitted). -/
inductive DiffOp
  | same (value : String)
  | removed (value : String)
  | added (value : String)
deriving DecidableEq, Repr

/-- `backtrackDiff`'s while loop, from state `(i, j)` down to `(0, 0)`.
`unshift` builds the result front-first while `(i, j)` decreases, so the
loop is the recursion "result of `(i, j)` = result of the smaller state
followed by this step's op".  The loop's three guarded branches are:
`same` when `i>0 && j>0 && a[i-1] === b[j-1]`; `added` when
`j>0 && (i==0 || dp[i][j-1] >= dp[i-1][j])`; otherwise `removed` (which
requires `i>0`).  Row `0` therefore only emits `added`, column `0` only
`removed`; `backtrackStepRow` is row `i+1` with `below` the function for
row `i`. -/
def backtrackRowZero (b : List String) : Nat → List DiffOp
  | 0 => []
  | j + 1 => backtrackRowZero b j ++ [DiffOp.added (b.getD j "")]

def backtrackStepRow (a b : List String) (i : Nat) (below : Nat → List DiffOp) :
    Nat → List DiffOp
  | 0 => below 0 ++ [DiffOp.removed (a.getD i "")]
  | j + 1 =>
    if a.getD i "" = b.getD j "" then
      below j ++ [DiffOp.same (a.getD i "")]
    else if lcsMatrix a b i (j + 1) ≤ lcsMatrix a b (i + 1) j then
      backtrackStepRow a b i below j ++ [DiffOp.added (b.getD j "")]
    else
      below (j + 1) ++ [DiffOp.removed (a.getD i "")]

def backtrackDiff (a b : List String) : Nat → Nat → List DiffOp
  | 0 => backtrackRowZero b
  | i + 1 => backtrackStepRow a b i (backtrackDiff a b i)

/-- fidelity bridge: `backtrackDiff` satisfies, state by state, exactly
the case analysis of the source's while loop (conditions written as in
the source, with `dp[i][j-1] >= dp[i-1][j]` as
`lcsMatrix a b (i-1+1-1+…)` at the loop's indices). -/
theorem backtrackDiff_eq_loop (a b : List String) (i j : Nat) :
    backtrackDiff a b i j =
      if 0 < i ∧ 0 < j ∧ a.getD (i - 1) "" = b.getD (j - 1) "" then
        backtrackDiff a b (i - 1) (j - 1) ++ [DiffOp.same (a.getD (i - 1) "")]
      else if 0 < j ∧ (i = 0 ∨ lcsMatrix a b i (j - 1) ≥ lcsMatrix a b (i - 1) j) then
        backtrackDiff a b i (j - 1) ++ [DiffOp.added (b.getD (j - 1) "")]
      else if 0 < i then
        backtrackDiff a b (i - 1) j ++ [DiffOp.removed (a.getD (i - 1) "")]
      else [] := by
  match i, j with
  | 0, 0 => simp [backtrackDiff, backtrackRowZero]
  | 0, j + 1 => simp [backtrackDiff, backtrackRowZero]
  | i + 1, 0 => simp [backtrackDiff, backtrackStepRow]
  | i + 1, j + 1 =>
    have e1 : backtrackDiff a b (i + 1) (j + 1) =
        if a.getD i "" = b.getD j "" then
          backtrackDiff a b i j ++ [DiffOp.same (a.getD i "")]
        else if lcsMatrix a b i (j + 1) ≤ lcsMatrix a b (i + 1) j then
          backtrackDiff a b (i + 1) j ++ [DiffOp.added (b.getD j "")]
        else
          backtrackDiff a b i (j + 1) ++ [DiffOp.removed (a.getD i "")] := rfl
    rw [e1]
    simp only [Nat.add_sub_cancel, Nat.zero_lt_succ, true_and, Nat.succ_ne_zero,
      false_or, ge_iff_le, if_true]

/-- accumulator of `computeTextDiff`'s coalescing while loop: the chunk
list, the three counters, and the collected (not yet deduplicated)
high-risk phrases. -/
structure CoalesceOut where
  chunks : List DiffChunk
  addedCount : Nat
  removedCount : Nat
  modifiedCount : Nat
  hr : List String
deriving DecidableEq, Repr

/-- the coalescing while loop of `computeTextDiff`: `same` ops are
dropped; a `removed` immediately followed by `added` becomes one
`modified` chunk (consuming both ops); a lone `added`/`removed` becomes
its own chunk.  Chunk locations, excerpts and high-risk scans are exactly
the source's. -/
def coalesceOps (previousContent newContent : String) : List DiffOp → CoalesceOut
  | [] => ⟨[], 0, 0, 0, []⟩
  | DiffOp.same _ :: rest => coalesceOps previousContent newContent rest
  | DiffOp.removed v :: DiffOp.added w :: rest2 =>
    let out := coalesceOps previousContent newContent rest2
    let location := findNearestHeading previousContent (jsIndexOf previousContent v)
    let addedText := jsReplaceFirst w v ""
    { chunks :=
        { type := DiffType.modified, before := some (truncateExcerpt v),
          after := some (truncateExcerpt w), location := location } :: out.chunks
      addedCount := out.addedCount
      removedCount := out.removedCount
      modifiedCount := out.modifiedCount + 1
      hr := detectHighRiskPhrases addedText ++ out.hr }
  | DiffOp.removed v :: rest =>
    let out := coalesceOps previousContent newContent rest
    let location := findNearestHeading previousContent (jsIndexOf previousContent v)
    { chunks :=
        { type := DiffType.removed, before := some (truncateExcerpt v),
          after := none, location := location } :: out.chunks
      addedCount := out.addedCount
      removedCount := out.removedCount + 1
      modifiedCount := out.modifiedCount
      hr := out.hr }
  | DiffOp.added w :: rest =>
    let out := coalesceOps previousContent newContent rest
    let location := findNearestHeading newContent (jsIndexOf newContent w)
    { chunks :=
        { type := DiffType.added, before := none,
          after := some (truncateExcerpt w), location := location } :: out.chunks
      addedCount := out.addedCount + 1
      removedCount := out.removedCount
      modifiedCount := out.modifiedCount
      hr := detectHighRiskPhrases w ++ out.hr }

/-- the sort key of the prioritizing comparator: `a.after` truthy and
containing at least one high-risk phrase. -/
def chunkHasRisk (c : DiffChunk) : Bool :=
  if jsTruthyStr c.after then !(detectHighRiskPhrases (c.after.getD "")).isEmpty
  else false

/-- `chunks.sort(cmp).slice(0, maxChunks)` of `computeTextDiff`.  The
comparator returns `-1`/`1`/`0` according to `chunkHasRisk` of its two
arguments, i.e. it orders by that Boolean key; `Array.prototype.sort` is
stable (ES2019), and a stable sort by a two-valued key is exactly the
stable partition: the key-true elements in original order, then the
key-false elements in original order. -/
def prioritizeChunks (chunks : List DiffChunk) (maxChunks : Nat) : List DiffChunk :=
  (chunks.filter chunkHasRisk ++ chunks.filter fun c => !chunkHasRisk c).take maxChunks

/-- raw (pre-cap) chunk list of a diff computation. -/
def coalescedChunks (previousContent newContent : String) : List DiffChunk :=
  let prevParagraphs := splitIntoParagraphs previousContent
  let newParagraphs := splitIntoParagraphs newContent
  (coalesceOps previousContent newContent
    (backtrackDiff prevParagraphs newParagraphs
      prevParagraphs.length newParagraphs.length)).chunks

/-- `computeTextDiff`. -/
def computeTextDiff (previousContent newContent : String) (maxChunks : Nat := 8) :
    DiffResult :=
  let prevParagraphs := splitIntoParagraphs previousContent
  let newParagraphs := splitIntoParagraphs newContent
  let diffOps := backtrackDiff prevParagraphs newParagraphs
    prevParagraphs.length newParagraphs.length
  let out := coalesceOps previousContent newContent diffOps
  let uniqueHighRisk := dedupKeepFirst [] out.hr
  let prioritizedChunks := prioritizeChunks out.chunks maxChunks
  let requirements :=
    extractRequirementsFromChunks prioritizedChunks previousContent newContent
  { chunks := prioritizedChunks
    summary :=
      { added := out.addedCount, removed := out.removedCount,
        modified := out.modifiedCount }
    highRiskPhrases := uniqueHighRisk
    hasHighRiskChanges := !uniqueHighRisk.isEmpty
    isProcedural := false
    requirements := requirements }

/-- `computeTextDiffWithContext`. -/
def computeTextDiffWithContext (previousContent newContent fileName : String)
    (maxChunks : Nat := 8) : DiffResult :=
  let result := computeTextDiff previousContent newContent maxChunks
  { result with isProcedural := detectProceduralDocument fileName newContent }

/-! ## `types.ts` — persisted data model

`changeType` is persisted as a TEXT column; the TypeScript union names
five values, and the generator's `switch` has a `default` arm for any
other stored value, modelled by the `unrecognized` constructor. -/

inductive ChangeType
  | created
  | modified
  | deleted
  | renamed
  | baseline
  | unrecognized (raw : String)
deriving DecidableEq, Repr

inductive Severity
  | low
  | medium
  | high
deriving DecidableEq, Repr

inductive ExplanationStatus
  | pending
  | generated
  | failed
  | skipped
deriving DecidableEq, Repr

inductive Confidence
  | low
  | medium
  | high
deriving DecidableEq, Repr

/-- `ChangeReason` (every field optional, as in the source). -/
structure ChangeReason where
  contentChanged : Option Bool := none
  nameChanged : Option Bool := none
  metadataChanged : Option Bool := none
  oldName : Option String := none
  newName : Option String := none
  lastSeenAt : Option String := none
  lastKnownName : Option String := none
  baselineDocCount : Option Nat := none
deriving DecidableEq, Repr

/-- `ChangeRecord` at detection time.  The source serializes `reason` with
`JSON.stringify` and re-parses it in the generator (`parseReason`, with a
failed parse yielding `{}`); the embedding stores the structured value
directly, which is what every reader observes.  The explanation fields
(mutated later, by `generateAndStoreExplanation`) are modelled separately
as `ExplFields`. -/
structure ChangeRecord where
  id : String
  documentId : Option String := none
  previousVersionId : Option String := none
  newVersionId : Option String := none
  changeType : ChangeType
  detectedAt : String
  summary : Option String := none
  reason : Option ChangeReason := none
  severity : Option Severity := none
deriving DecidableEq, Repr

structure ChangeItem where
  change_type : DiffType
  location : Option String
  before_excerpt : Option String
  after_excerpt : Option String
  plain_english_change : String
  why_it_matters : String
  recommended_action : String
  confidence : Confidence
deriving DecidableEq, Repr

structure SOPRequirement where
  requirement : String
  applies_to : Option String
  what_is_new : String
  before_excerpt : Option String
  after_excerpt : String
  operational_impact : String
  category : ReqCategory
  confidence : Confidence
deriving DecidableEq, Repr

structure ExplanationBullets where
  what_changed : List String
  why_it_matters : List String
  recommended_actions : List String
  change_items : Option (List ChangeItem) := none
  new_or_changed_requirements : Option (List SOPRequirement) := none
deriving DecidableEq, Repr

/-- `ExplanationMeta`; `fallbackFromError` and `backfilled` are the ad-hoc
properties spread onto the object by `generateAndStoreExplanation` /
`backfillNullExplanations`. -/
structure ExplanationMeta where
  model : Option String := none
  promptVersion : Option String := none
  inputsUsed : Option (List String) := none
  confidence : Option Confidence := none
  deterministic : Option Bool := none
  highRiskDetected : Option Bool := none
  highRiskPhrases : Option (List String) := none
  skippedAI : Option Bool := none
  documentType : Option String := none
  fallbackFromError : Option Bool := none
deriving DecidableEq, Repr

structure ExplanationInput where
  changeRecord : ChangeRecord
  documentName : Option String := none
  previousContent : Option String := none
  newContent : Option String := none
  reason : Option ChangeReason := none
deriving DecidableEq, Repr

structure ExplanationOutput where
  text : String
  bullets : ExplanationBullets
  meta : ExplanationMeta
deriving DecidableEq, Repr

/-! ## `explanationGenerator.ts` — deterministic strategy -/

/-- `parseReason`: missing (or unparsable) reason yields `{}`. -/
def parseReason (record : ChangeRecord) : ChangeReason :=
  record.reason.getD {}

/-- `createDeterministicExplanation`: the meta object is
`{deterministic: true, confidence: meta.confidence || 'high',
promptVersion: 'deterministic-v2', ...meta}` — the spread of the partial
`meta` last means its present fields win (call sites only ever pass
`confidence` and the SOP extras, so `deterministic` and `promptVersion`
keep the base values whenever absent from `meta`). -/
def createDeterministicExplanation (text : String) (bullets : ExplanationBullets)
    (meta : ExplanationMeta := {}) : ExplanationOutput :=
  { text := text
    bullets := bullets
    meta :=
      { meta with
        deterministic := some (meta.deterministic.getD true)
        confidence := some (meta.confidence.getD Confidence.high)
        promptVersion := some (meta.promptVersion.getD "deterministic-v2") } }

/-- `new Date(s).toLocaleDateString()` of the `deleted` arm, modelled as
the identity on the stored timestamp string (locale rendering is
environment-dependent and irrelevant to every property proved here). -/
def jsToLocaleDateString (s : String) : String := s

/-- `generateCreatedExplanation` (protected method).  `hasContent`
requires a truthy string that does not start with `[` (the extraction
placeholders) and is longer than 50 units. -/
def generateCreatedExplanation (documentName : Option String)
    (content : Option String) : ExplanationOutput :=
  let name := jsOrStr documentName "New document"
  let hasContent := jsTruthyStr content &&
    !jsStartsWith (content.getD "") "[" && 50 < (content.getD "").length
  if hasContent then
    createDeterministicExplanation
      ("New document \"" ++ name ++ "\" added to the tracked folder.")
      { what_changed := ["New document \"" ++ name ++ "\" has been added"]
        why_it_matters :=
          ["New policies or procedures may require training updates",
           "Staff may need to be informed of new documentation"]
        recommended_actions :=
          ["Review the new document content",
           "Determine if onboarding or training materials need updates",
           "Communicate new document availability to relevant teams"] }
      { confidence := some Confidence.medium }
  else
    createDeterministicExplanation
      ("New document \"" ++ name ++ "\" added. Content analysis not available.")
      { what_changed := ["New document \"" ++ name ++ "\" detected"]
        why_it_matters :=
          ["New documents may contain important policy information",
           "Content details require manual review (format not fully supported)"]
        recommended_actions :=
          ["Open the document directly to review its contents",
           "Assess if training materials need updates"] }
      { confidence := some Confidence.low }

/-- `describeNewRequirement` (protected method). -/
def describeNewRequirement (req : RequirementStatement) : String :=
  let base :=
    match req.category with
    | ReqCategory.training => "New training requirement"
    | ReqCategory.system => "New system/tool usage requirement"
    | ReqCategory.storage => "New document storage requirement"
    | ReqCategory.step => "New or modified procedure step"
    | ReqCategory.responsibility => "New role responsibility assigned"
    | ReqCategory.obligation => "New requirement or obligation"
  if jsTruthyStr req.appliesTo then base ++ " for " ++ req.appliesTo.getD ""
  else base

/-- per-category operational-impact sentence of `generateSOPExplanation`. -/
def operationalImpactFor : ReqCategory → String
  | ReqCategory.training =>
    "Staff training programs may need to be updated or new training sessions scheduled"
  | ReqCategory.system => "Employees must learn and use the specified system or tool"
  | ReqCategory.storage => "Document handling and filing procedures must change"
  | ReqCategory.step => "Workflow steps have changed - current procedures need updating"
  | ReqCategory.responsibility => "Role responsibilities have been assigned or modified"
  | ReqCategory.obligation => "A new requirement or obligation has been introduced"

/-- `generateSOPExplanation` (protected method). -/
def generateSOPExplanation (documentName : String) (diffResult : DiffResult) :
    ExplanationOutput :=
  let sopRequirements : List SOPRequirement := diffResult.requirements.map fun req =>
    { requirement := req.text
      applies_to := req.appliesTo
      what_is_new := describeNewRequirement req
      before_excerpt := req.beforeText
      after_excerpt := jsOrStr req.afterText req.text
      operational_impact := operationalImpactFor req.category
      category := req.category
      confidence := if jsTruthyStr req.location then Confidence.high else Confidence.medium }
  let whatChanged := sopRequirements.map (fun req => req.what_is_new)
  let trainingReqs := sopRequirements.filter fun r => r.category = ReqCategory.training
  let systemReqs := sopRequirements.filter fun r => r.category = ReqCategory.system
  let storageReqs := sopRequirements.filter fun r => r.category = ReqCategory.storage
  let whyMatters : List String :=
    (if 0 < trainingReqs.length then
      [toString trainingReqs.length ++ " new training requirement(s) identified"] else []) ++
    (if 0 < systemReqs.length then
      [toString systemReqs.length ++ " new system/tool usage requirement(s)"] else []) ++
    (if 0 < storageReqs.length then
      [toString storageReqs.length ++ " new document storage requirement(s)"] else []) ++
    (if diffResult.hasHighRiskChanges then
      ["HIGH RISK: Contains compliance language (" ++
        String.intercalate ", " (diffResult.highRiskPhrases.take 3) ++ ")"] else [])
  let whyMatters :=
    if whyMatters.length = 0 then ["Procedural requirements have been updated"]
    else whyMatters
  let recommendedActions : List String :=
    (if 0 < trainingReqs.length then
      ["Schedule required training for affected staff"] else []) ++
    (if 0 < systemReqs.length then
      ["Ensure employees have access to required systems"] else []) ++
    (if 0 < storageReqs.length then
      ["Update document storage procedures"] else []) ++
    ["Review the full SOP for complete context",
     "Update onboarding materials to reflect new procedures"]
  let title := "\"" ++ documentName ++ "\" SOP modified: " ++
    toString sopRequirements.length ++ " new/changed requirement(s)"
  createDeterministicExplanation title
    { what_changed := whatChanged
      why_it_matters := whyMatters
      recommended_actions := recommendedActions
      new_or_changed_requirements := some sopRequirements }
    { confidence := some Confidence.high
      highRiskDetected := some diffResult.hasHighRiskChanges
      highRiskPhrases := some diffResult.highRiskPhrases
      documentType := some "procedural" }

/-- `detectHighRiskInText` (protected method) — note this list is the
shorter 14-phrase list of `explanationGenerator.ts`, distinct from the
diff helper's. -/
def detectHighRiskInText (text : String) : List String :=
  dedupKeepFirst []
    ((["sell", "share", "disclose", "third party", "transfer", "retain", "collect",
       "consent", "opt out", "opt-out", "marketing", "undisclosed", "PII",
       "personal data"] : List String).filter fun phrase =>
      jsIncludes (jsToLower text) (jsToLower phrase))

/-- per-chunk change item of `generateEvidenceBasedExplanation`. -/
def evidenceChangeItem (chunk : DiffChunk) : ChangeItem :=
  let plainEnglish :=
    match chunk.type with
    | DiffType.added =>
      if jsTruthyStr chunk.location then
        "New content added in \"" ++ chunk.location.getD "" ++ "\" section"
      else "New content added to document"
    | DiffType.removed =>
      if jsTruthyStr chunk.location then
        "Content removed from \"" ++ chunk.location.getD "" ++ "\" section"
      else "Content removed from document"
    | DiffType.modified =>
      if jsTruthyStr chunk.location then
        "Content modified in \"" ++ chunk.location.getD "" ++ "\" section"
      else "Content was revised"
  let whyMatters :=
    match chunk.type with
    | DiffType.added => "New policy language may introduce new requirements or obligations"
    | DiffType.removed =>
      "Removed language may indicate deprecated procedures or reduced protections"
    | DiffType.modified =>
      "Modified language may change requirements, timelines, or responsibilities"
  let action :=
    match chunk.type with
    | DiffType.added => "Review the added content for compliance implications"
    | DiffType.removed => "Verify removal was intentional and update related training"
    | DiffType.modified => "Compare before and after text to understand the change"
  let hrPhrases := if jsTruthyStr chunk.after then
    detectHighRiskInText (chunk.after.getD "") else []
  let whyMatters :=
    if 0 < hrPhrases.length then
      "HIGH RISK: Contains \"" ++ hrPhrases.headD "" ++
        "\" language - may affect privacy/compliance"
    else whyMatters
  let action :=
    if 0 < hrPhrases.length then "Escalate for legal/compliance review immediately"
    else action
  { change_type := chunk.type
    location := chunk.location
    before_excerpt := chunk.before
    after_excerpt := chunk.after
    plain_english_change := plainEnglish
    why_it_matters := whyMatters
    recommended_action := action
    confidence := if jsTruthyStr chunk.location then Confidence.high else Confidence.medium }

/-- `generateEvidenceBasedExplanation` (protected method). -/
def generateEvidenceBasedExplanation (documentName : String)
    (diffResult : DiffResult) : ExplanationOutput :=
  let changeItems := diffResult.chunks.map evidenceChangeItem
  let whatChanged := changeItems.map fun item => item.plain_english_change
  let whatChanged :=
    if whatChanged.length = 0 then
      ["\"" ++ documentName ++ "\" content has changed"]
    else whatChanged
  let whyMatters : List String :=
    (if diffResult.hasHighRiskChanges then
      ["HIGH RISK: Contains privacy/compliance language (" ++
        String.intercalate ", " (diffResult.highRiskPhrases.take 3) ++ ")"] else []) ++
    ["Policy modifications may affect compliance requirements"] ++
    (if 0 < diffResult.summary.added then
      [toString diffResult.summary.added ++ " new section(s) added"] else []) ++
    (if 0 < diffResult.summary.removed then
      [toString diffResult.summary.removed ++ " section(s) removed"] else [])
  let recommendedActions :=
    (if diffResult.hasHighRiskChanges then
      ["Escalate to legal/compliance team for review"] else []) ++
    ["Review all changed sections carefully",
     "Assess impact on training and onboarding materials"]
  let titlePre := if diffResult.hasHighRiskChanges then "⚠️ HIGH RISK: " else ""
  let title := titlePre ++ "\"" ++ documentName ++ "\" modified with " ++
    toString diffResult.chunks.length ++ " specific change(s)"
  createDeterministicExplanation title
    { what_changed := whatChanged
      why_it_matters := whyMatters
      recommended_actions := recommendedActions
      change_items := some changeItems }
    { confidence :=
        some (if 0 < changeItems.length then Confidence.high else Confidence.medium)
      highRiskDetected := some diffResult.hasHighRiskChanges
      highRiskPhrases := some diffResult.highRiskPhrases }

/-- `generateModifiedExplanation` (protected method). -/
def generateModifiedExplanation (documentName previousContent newContent : Option String) :
    ExplanationOutput :=
  let name := jsOrStr documentName "Document"
  let hasPrevious := jsTruthyStr previousContent &&
    !jsStartsWith (previousContent.getD "") "[" && 50 < (previousContent.getD "").length
  let hasNew := jsTruthyStr newContent &&
    !jsStartsWith (newContent.getD "") "[" && 50 < (newContent.getD "").length
  if hasPrevious && hasNew then
    let diffResult :=
      computeTextDiffWithContext (previousContent.getD "") (newContent.getD "") name
    if diffResult.isProcedural && 0 < diffResult.requirements.length then
      generateSOPExplanation name diffResult
    else generateEvidenceBasedExplanation name diffResult
  else
    createDeterministicExplanation
      ("Document \"" ++ name ++ "\" has been modified. Detailed diff not available.")
      { what_changed := ["\"" ++ name ++ "\" content has changed"]
        why_it_matters :=
          ["Document modifications may affect policies or procedures",
           "Detailed comparison not available for this file format"]
        recommended_actions :=
          ["Open the document directly to review changes",
           "Compare with previous version if available"] }
      { confidence := some Confidence.low }

/-- `DeterministicExplanationGenerator.generateExplanation`.  The method
is total: every arm returns a value and no arm can throw (the only
fallible JS operation on the path, `JSON.parse` in `parseReason`, is
wrapped in its own try/catch). -/
def deterministicGenerateExplanation (input : ExplanationInput) : ExplanationOutput :=
  let reason := parseReason input.changeRecord
  match input.changeRecord.changeType with
  | ChangeType.baseline =>
    createDeterministicExplanation
      ("Baseline established: " ++ toString (reason.baselineDocCount.getD 0) ++
        " documents indexed. This is the starting point for change monitoring.")
      { what_changed :=
          ["Initial document inventory captured (" ++
            toString (reason.baselineDocCount.getD 0) ++ " documents)",
           "All documents indexed for future change detection"]
        why_it_matters :=
          ["Establishes baseline for detecting future policy and procedure updates",
           "No policy changes occurred - this is the monitoring setup"]
        recommended_actions :=
          ["No action required - monitoring is now active",
           "Future changes will be tracked and explained"] }
  | ChangeType.renamed =>
    let oldName := jsOrStr reason.oldName "unknown"
    let newName := jsOrStr reason.newName (jsOrStr input.documentName "unknown")
    createDeterministicExplanation
      ("Document renamed from \"" ++ oldName ++ "\" to \"" ++ newName ++ "\".")
      { what_changed :=
          ["File name changed from \"" ++ oldName ++ "\" to \"" ++ newName ++ "\""]
        why_it_matters :=
          ["Renamed documents may indicate updated scope or purpose",
           "Training materials referencing the old name may need updates"]
        recommended_actions :=
          ["Update any references to the old document name",
           "Verify training materials use the correct document title"] }
  | ChangeType.deleted =>
    let deletedName := jsOrStr reason.lastKnownName
      (jsOrStr input.documentName "Unknown document")
    let lastSeen :=
      if jsTruthyStr reason.lastSeenAt then
        " (last seen: " ++ jsToLocaleDateString (reason.lastSeenAt.getD "") ++ ")"
      else ""
    createDeterministicExplanation
      ("Document \"" ++ deletedName ++ "\" removed from the monitored folder." ++ lastSeen)
      { what_changed := ["\"" ++ deletedName ++ "\" is no longer in the monitored folder"]
        why_it_matters :=
          ["Document may have been intentionally deprecated",
           "Could indicate policy or procedure is no longer applicable",
           "Training content referencing this document may be outdated"]
        recommended_actions :=
          ["Verify if removal was intentional",
           "Check if document was moved to a different location",
           "Update training materials if document is deprecated"] }
      { confidence := some Confidence.medium }
  | ChangeType.created =>
    generateCreatedExplanation input.documentName input.newContent
  | ChangeType.modified =>
    generateModifiedExplanation input.documentName input.previousContent input.newContent
  | ChangeType.unrecognized _ =>
    createDeterministicExplanation "Change detected in document."
      { what_changed := ["Document change detected"]
        why_it_matters := ["Review may be required"]
        recommended_actions := ["Review the document for details"] }
      { confidence := some Confidence.low }

/-! ## `explanationGenerator.ts` — AI-assisted strategy and persistence

`generateAIExplanation` performs one external chat-completion call and a
lenient parse of the JSON payload.  Its outcome — either a parsed
`ExplanationOutput` or a thrown error (transport error, non-success
response, empty content, `JSON.parse` failure) — is the model's
`aiOutcome` parameter; everything the caller does with that outcome is
embedded faithfully below. -/

/-- `ReplitAIExplanationGenerator.generateExplanation`.
`enabled` is the `EXPLANATIONS_ENABLED` flag captured in the constructor;
`hasClient` is whether `initializeOpenAI` succeeded (`this.openai` is
non-null).  `baseline`/`renamed`/`deleted` always delegate to the
deterministic strategy; a disabled flag or missing client delegates; and
an AI failure is caught *inside this method*, logged to the console, and
answered with the deterministic output — the thrown error is not
re-raised and not attached to the returned value. -/
def replitGenerateExplanation (enabled hasClient : Bool)
    (aiOutcome : Except String ExplanationOutput)
    (input : ExplanationInput) : ExplanationOutput :=
  if input.changeRecord.changeType = ChangeType.baseline ||
      input.changeRecord.changeType = ChangeType.renamed ||
      input.changeRecord.changeType = ChangeType.deleted then
    deterministicGenerateExplanation input
  else if !enabled || !hasClient then
    deterministicGenerateExplanation input
  else
    match aiOutcome with
    | Except.ok output => output
    | Except.error _ => deterministicGenerateExplanation input

/-- explanation fields of a stored `ChangeRecord`, the mutable slice
written by `db.updateChangeRecordExplanation` (the source serializes
bullets/meta with `JSON.stringify`; the structured values are stored
here). -/
structure ExplFields where
  explanationText : Option String := none
  explanationBullets : Option ExplanationBullets := none
  explanationMeta : Option ExplanationMeta := none
  explanationStatus : Option ExplanationStatus := none
  explanationError : Option String := none
  explainedAt : Option String := none
deriving DecidableEq, Repr

/-- the catch block of `generateAndStoreExplanation`: build a fresh
deterministic explanation and store it with status `generated` and
`explanationError = "AI failed: " ++ e`; if that store itself fails, store
only `status = failed` with the original error text. -/
def storeFallbackExplanation (errorMessage : String) (input : ExplanationInput)
    (fields : ExplFields) (fallbackWrite : Except String Unit) (now : String) :
    ExplFields :=
  let fallbackOutput := deterministicGenerateExplanation input
  match fallbackWrite with
  | Except.ok _ =>
    { fields with
      explanationText := some fallbackOutput.text
      explanationBullets := some fallbackOutput.bullets
      explanationMeta := some { fallbackOutput.meta with fallbackFromError := some true }
      explanationStatus := some ExplanationStatus.generated
      explanationError := some ("AI failed: " ++ errorMessage)
      explainedAt := some now }
  | Except.error _ =>
    { fields with
      explanationStatus := some ExplanationStatus.failed
      explanationError := some errorMessage
      explainedAt := some now }

/-- `generateAndStoreExplanation`.  `genOutcome` is the outcome of
`generator.generateExplanation(input)` (for the AI generator this never
throws — see `replitGenerateExplanation`); `generatorEnabled` is
`generator.isEnabled()`; `primaryWrite`/`fallbackWrite` are the outcomes
of the two possible `db.updateChangeRecordExplanation` calls.  A throw at
any point of the try block (the generator or the primary write) lands in
the catch block. -/
def generateAndStoreExplanation (genOutcome : Except String ExplanationOutput)
    (generatorEnabled : Bool) (input : ExplanationInput) (fields : ExplFields)
    (primaryWrite fallbackWrite : Except String Unit) (now : String) : ExplFields :=
  match genOutcome with
  | Except.ok output =>
    let status :=
      if generatorEnabled ||
          input.changeRecord.changeType = ChangeType.baseline ||
          input.changeRecord.changeType = ChangeType.renamed ||
          input.changeRecord.changeType = ChangeType.deleted then
        ExplanationStatus.generated
      else ExplanationStatus.skipped
    match primaryWrite with
    | Except.ok _ =>
      { fields with
        explanationText := some output.text
        explanationBullets := some output.bullets
        explanationMeta := some output.meta
        explanationStatus := some status
        explainedAt := some now }
    | Except.error e => storeFallbackExplanation e input fields fallbackWrite now
  | Except.error e => storeFallbackExplanation e input fields fallbackWrite now

/-! ## `scheduler.ts` — single-flight guard

The `SchedulerService` singleton's mutable state (its `config` object and
private fields) is flattened into one record.  `timer` models whether
`setInterval` is active, `hasCallback` whether `setIngestionCallback` has
run.  The ingestion callback and the config save are external effects
passed as `Except` outcomes; `runScheduledIngestion` additionally returns
the ordered trace of guard/body events so that the ordering "guard set
before the body, cleared after it" is provable, not just the final
state. -/

structure SchedulerState where
  enabled : Bool := false
  intervalMinutes : Nat := 60
  folderId : Option String := none
  lastRun : Option String := none
  nextRun : Option String := none
  timer : Bool := false
  hasCallback : Bool := false
  ingestionInProgress : Bool := false
deriving DecidableEq, Repr

inductive SchedEvent
  | guardSet
  | bodyStarted
  | bodyFinished (ok : Bool)
  | guardCleared
deriving DecidableEq, Repr

structure RunNowResult where
  runId : Option String
  error : Option String
deriving DecidableEq, Repr

/-- `SchedulerService.start()` (`nextT` stands for the computed
`new Date(Date.now() + intervalMs)` string). -/
def schedStart (st : SchedulerState) (nextT : String) : SchedulerState :=
  let st := { st with timer := false }
  if !jsTruthyStr st.folderId then st
  else { st with enabled := true, nextRun := some nextT, timer := true }

/-- `SchedulerService.stop()`. -/
def schedStop (st : SchedulerState) : SchedulerState :=
  { st with timer := false, enabled := false, nextRun := none }

/-- the field updates accepted by `POST /api/scheduler` (the route only
forwards `enabled` when boolean, `intervalMinutes` when a number `≥ 1`,
and `folderId` when a string — any string, including `""`). -/
structure SchedulerConfigUpdates where
  enabled : Option Bool := none
  intervalMinutes : Option Nat := none
  folderId : Option String := none
deriving DecidableEq, Repr

/-- `SchedulerService.updateConfig`: merge the updates, persist, then
`start()` if enabled with a folder, else `stop()`. -/
def updateConfig (st : SchedulerState) (u : SchedulerConfigUpdates)
    (nextT : String) : SchedulerState :=
  let st := { st with
    enabled := u.enabled.getD st.enabled
    intervalMinutes := u.intervalMinutes.getD st.intervalMinutes
    folderId := match u.folderId with | some f => some f | none => st.folderId }
  if st.enabled && jsTruthyStr st.folderId then schedStart st nextT
  else schedStop st

/-- `SchedulerService.runScheduledIngestion` (private).  `saveOutcome` is
the awaited `db.saveSchedulerConfig` inside the try block, `bodyOutcome`
the awaited ingestion callback; the `finally` clears the guard on every
path out of the try block. -/
def runScheduledIngestion (st : SchedulerState)
    (saveOutcome bodyOutcome : Except String Unit)
    (freshRunId now nextT : String) :
    SchedulerState × RunNowResult × List SchedEvent :=
  if !jsTruthyStr st.folderId || !st.hasCallback then
    (st, { runId := none, error := some "Not configured" }, [])
  else if st.ingestionInProgress then
    (st, { runId := none, error := some "Previous ingestion still running" }, [])
  else
    let st1 := { st with
      ingestionInProgress := true
      lastRun := some now
      nextRun := if st.enabled then some nextT else st.nextRun }
    match saveOutcome with
    | Except.error e =>
      ({ st1 with ingestionInProgress := false },
       { runId := none, error := some e },
       [SchedEvent.guardSet, SchedEvent.guardCleared])
    | Except.ok _ =>
      match bodyOutcome with
      | Except.ok _ =>
        ({ st1 with ingestionInProgress := false },
         { runId := some freshRunId, error := none },
         [SchedEvent.guardSet, SchedEvent.bodyStarted,
          SchedEvent.bodyFinished true, SchedEvent.guardCleared])
      | Except.error e =>
        ({ st1 with ingestionInProgress := false },
         { runId := none, error := some e },
         [SchedEvent.guardSet, SchedEvent.bodyStarted,
          SchedEvent.bodyFinished false, SchedEvent.guardCleared])

/-- `SchedulerService.runNow()`. -/
def runNow (st : SchedulerState) (saveOutcome bodyOutcome : Except String Unit)
    (freshRunId now nextT : String) :
    SchedulerState × RunNowResult × List SchedEvent :=
  if !jsTruthyStr st.folderId then
    (st, { runId := none, error := some "No folder ID configured" }, [])
  else if st.ingestionInProgress then
    (st, { runId := none, error := some "Ingestion already in progress" }, [])
  else runScheduledIngestion st saveOutcome bodyOutcome freshRunId now nextT

/-! ## `index.ts` — the ingestion run (`startIngestion`)

The run is modelled on its successful path: the auth precondition holds
(an unauthenticated run marks the `IngestionRun` failed before touching
any document) and every database write succeeds (a failing write aborts
the run, which the spec documents as partial-progress semantics; no claim
below quantifies over that abort).  External inputs are the flattened
Drive listing `files`, the per-file content extraction `extract` (the
source's `extractContent` returns `''` on an extraction failure, which
skips the file), the checksum function `hashFn` and a fixed timestamp
`now`; `uuidv4()` is modelled by a counter threaded through the run in
source call order. -/

structure DriveFile where
  id : String
  name : String
  mimeType : String
  modifiedTime : String
  md5Checksum : Option String := none
deriving DecidableEq, Repr

structure Document where
  id : String
  googleDriveId : String
  fileName : String
  mimeType : String
  lastModified : String
  currentVersionId : String
  currentHash : String
  isDeleted : Bool := false
  deletedAt : Option String := none
deriving DecidableEq, Repr

structure DocumentVersion where
  id : String
  documentId : String
  hash : String
  content : String
  createdAt : String
deriving DecidableEq, Repr

/-- the persisted store, as far as the run touches it. -/
structure DBState where
  documents : List Document
  versions : List DocumentVersion
  changeRecords : List ChangeRecord
deriving DecidableEq, Repr

def getTotalDocumentCount (db : DBState) : Nat := db.documents.length

def getDocumentByGoogleDriveId (db : DBState) (gid : String) : Option Document :=
  db.documents.find? fun d => d.googleDriveId = gid

def getActiveDocuments (db : DBState) : List Document :=
  db.documents.filter fun d => !d.isDeleted

def createDocument (db : DBState) (d : Document) : DBState :=
  { db with documents := db.documents ++ [d] }

def createDocumentVersion (db : DBState) (v : DocumentVersion) : DBState :=
  { db with versions := db.versions ++ [v] }

/-- `db.updateDocument(id, fields)`, with the partial field set expressed
as an update function applied to the matching row(s). -/
def updateDocumentById (db : DBState) (id : String) (f : Document → Document) :
    DBState :=
  { db with documents := db.documents.map fun d => if d.id = id then f d else d }

structure IngestCfg where
  extract : DriveFile → String
  hashFn : String → String
  now : String

def genId (k : Nat) : String := "uuid-" ++ toString k

/-- run-local mutable state: the store, the records created by this run
(`createChangeRecord` appends to both views), `currentDriveIds`,
`changesDetected`, `docsProcessed` and the uuid counter. -/
structure RunState where
  db : DBState
  newRecords : List ChangeRecord
  currentDriveIds : List String
  changesDetected : Nat
  docsProcessed : Nat
  ctr : Nat
deriving Repr

def addRecord (st : RunState) (r : ChangeRecord) : RunState :=
  { st with
    db := { st.db with changeRecords := st.db.changeRecords ++ [r] }
    newRecords := st.newRecords ++ [r] }

def supportedMimes : List String :=
  ["application/pdf",
   "application/vnd.openxmlformats-officedocument.wordprocessingml.document",
   "application/vnd.google-apps.document"]

/-- hash selection: Google Docs (or a listing without `md5Checksum`,
where `!file.md5Checksum` is JS truthiness) get a tagged sha256 of the
extracted content, otherwise the native md5 checksum is used. -/
def computeFileHash (cfg : IngestCfg) (file : DriveFile) (content : String) : String :=
  if file.mimeType = "application/vnd.google-apps.document" ||
      !jsTruthyStr file.md5Checksum then
    "sha256:" ++ cfg.hashFn content
  else "md5:" ++ file.md5Checksum.getD ""

/-- the found-document arm of the per-file loop: reappearance, rename and
content-change checks, in source order.  `document` is the row as
fetched; later field reads (`document.fileName`, `.currentVersionId`,
`.currentHash`) see the fetched values, as in the source, where the local
variable is not refreshed after `updateDocument`. -/
def processExistingDoc (cfg : IngestCfg) (isBaselineRun : Bool) (st : RunState)
    (file : DriveFile) (content hash : String) (document : Document) : RunState :=
  let st :=
    if document.isDeleted then
      let st := { st with
        db := updateDocumentById st.db document.id fun d =>
          { d with isDeleted := false, deletedAt := none } }
      if !isBaselineRun then
        let record : ChangeRecord :=
          { id := genId st.ctr
            documentId := some document.id
            newVersionId := some document.currentVersionId
            changeType := ChangeType.created
            detectedAt := cfg.now
            summary := some ("Document \"" ++ file.name ++ "\" reappeared in the folder")
            reason := some {}
            severity := some Severity.medium }
        let st := { st with ctr := st.ctr + 1 }
        let st := addRecord st record
        { st with changesDetected := st.changesDetected + 1 }
      else st
    else st
  let renamed := file.name ≠ document.fileName
  let contentChanged := hash ≠ document.currentHash
  let st :=
    if renamed then
      let record : ChangeRecord :=
        { id := genId st.ctr
          documentId := some document.id
          newVersionId := some document.currentVersionId
          changeType := ChangeType.renamed
          detectedAt := cfg.now
          summary := some ("Document renamed from \"" ++ document.fileName ++
            "\" to \"" ++ file.name ++ "\"")
          reason := some { nameChanged := some true, oldName := some document.fileName,
                           newName := some file.name }
          severity := some Severity.low }
      let st := { st with ctr := st.ctr + 1 }
      let st := addRecord st record
      let st := { st with
        db := updateDocumentById st.db document.id fun d =>
          { d with fileName := file.name, lastModified := file.modifiedTime } }
      { st with changesDetected := st.changesDetected + 1 }
    else st
  if contentChanged then
    let versionId := genId st.ctr
    let st := { st with ctr := st.ctr + 1 }
    let version : DocumentVersion :=
      { id := versionId, documentId := document.id, hash := hash,
        content := content, createdAt := cfg.now }
    let st := { st with db := createDocumentVersion st.db version }
    let record : ChangeRecord :=
      { id := genId st.ctr
        documentId := some document.id
        previousVersionId := some document.currentVersionId
        newVersionId := some versionId
        changeType := ChangeType.modified
        detectedAt := cfg.now
        summary := some ("Document \"" ++ file.name ++ "\" content has changed")
        reason := some { contentChanged := some true }
        severity := some Severity.high }
    let st := { st with ctr := st.ctr + 1 }
    let st := addRecord st record
    let st := { st with
      db := updateDocumentById st.db document.id fun d =>
        { d with currentVersionId := versionId, currentHash := hash,
                 lastModified := file.modifiedTime } }
    { st with changesDetected := st.changesDetected + 1 }
  else st

/-- one iteration of the per-file loop of `startIngestion`. -/
def processFile (cfg : IngestCfg) (isBaselineRun : Bool) (st : RunState)
    (file : DriveFile) : RunState :=
  if !supportedMimes.contains file.mimeType then st
  else
    let st := { st with
      currentDriveIds := st.currentDriveIds ++ [file.id]
      docsProcessed := st.docsProcessed + 1 }
    let content := cfg.extract file
    if content = "" then st
    else
      let hash := computeFileHash cfg file content
      match getDocumentByGoogleDriveId st.db file.id with
      | none =>
        let docId := genId st.ctr
        let versionId := genId (st.ctr + 1)
        let st := { st with ctr := st.ctr + 2 }
        let document : Document :=
          { id := docId, googleDriveId := file.id, fileName := file.name,
            mimeType := file.mimeType, lastModified := file.modifiedTime,
            currentVersionId := versionId, currentHash := hash }
        let st := { st with db := createDocument st.db document }
        let version : DocumentVersion :=
          { id := versionId, documentId := docId, hash := hash,
            content := content, createdAt := cfg.now }
        let st := { st with db := createDocumentVersion st.db version }
        if !isBaselineRun then
          let record : ChangeRecord :=
            { id := genId st.ctr
              documentId := some docId
              newVersionId := some versionId
              changeType := ChangeType.created
              detectedAt := cfg.now
              summary := some ("Document \"" ++ file.name ++ "\" added to the system")
              reason := some {}
              severity := some Severity.medium }
          let st := { st with ctr := st.ctr + 1 }
          let st := addRecord st record
          { st with changesDetected := st.changesDetected + 1 }
        else st
      | some document => processExistingDoc cfg isBaselineRun st file content hash document

/-- one step of the deletion-detection loop (skips documents still listed,
soft-deletes the rest with a `deleted` record). -/
def softDeleteStep (cfg : IngestCfg) (st : RunState) (doc : Document) : RunState :=
  if st.currentDriveIds.contains doc.googleDriveId then st
  else
    let record : ChangeRecord :=
      { id := genId st.ctr
        documentId := some doc.id
        previousVersionId := some doc.currentVersionId
        changeType := ChangeType.deleted
        detectedAt := cfg.now
        summary := some ("Document \"" ++ doc.fileName ++ "\" removed from folder or deleted")
        reason := some { lastSeenAt := some doc.lastModified,
                         lastKnownName := some doc.fileName }
        severity := some Severity.medium }
    let st := { st with ctr := st.ctr + 1 }
    let st := addRecord st record
    let st := { st with
      db := updateDocumentById st.db doc.id fun d =>
        { d with isDeleted := true, deletedAt := some cfg.now } }
    { st with changesDetected := st.changesDetected + 1 }

/-- deletion detection: the active-document list is snapshotted once and
then iterated (updates during the iteration do not change the
snapshot). -/
def deletionDetection (cfg : IngestCfg) (st : RunState) : RunState :=
  (getActiveDocuments st.db).foldl (softDeleteStep cfg) st

/-- the baseline summary record, emitted only on a baseline run that
processed at least one file; note `changesDetected` is *assigned* 1. -/
def baselineSummary (cfg : IngestCfg) (isBaselineRun : Bool) (st : RunState) :
    RunState :=
  if isBaselineRun && 0 < st.docsProcessed then
    let record : ChangeRecord :=
      { id := genId st.ctr
        documentId := none
        changeType := ChangeType.baseline
        detectedAt := cfg.now
        summary := some ("Baseline established: " ++ toString st.docsProcessed ++
          " documents indexed")
        reason := some { baselineDocCount := some st.docsProcessed }
        severity := some Severity.low }
    let st := { st with ctr := st.ctr + 1 }
    let st := addRecord st record
    { st with changesDetected := 1 }
  else st

/-- `startIngestion` (successful path): baseline detection evaluated once
from the pre-run store, the per-file loop, deletion detection, then the
baseline summary.  The final `RunState` carries the store, the records
created by the run, and the `documentsProcessed`/`changesDetected`
counters written to the terminal `IngestionRun` row. -/
def startIngestion (cfg : IngestCfg) (db0 : DBState) (files : List DriveFile) :
    RunState :=
  let isBaselineRun := getTotalDocumentCount db0 = 0
  let st0 : RunState :=
    { db := db0, newRecords := [], currentDriveIds := [],
      changesDetected := 0, docsProcessed := 0, ctr := 0 }
  let st1 := files.foldl (processFile cfg isBaselineRun) st0
  let st2 := deletionDetection cfg st1
  baselineSummary cfg isBaselineRun st2

/-! ## Claims about the Explanation Generator (C8, C9, C1) -/

theorem generateCreatedExplanation_wc (dn c : Option String) :
    (generateCreatedExplanation dn c).bullets.what_changed ≠ [] := by
  simp only [generateCreatedExplanation, createDeterministicExplanation]
  split <;> simp

theorem generateSOPExplanation_wc (name : String) (d : DiffResult)
    (h : d.requirements ≠ []) :
    (generateSOPExplanation name d).bullets.what_changed ≠ [] := by
  simp only [generateSOPExplanation, createDeterministicExplanation]
  simpa using h

theorem generateEvidenceBasedExplanation_wc (name : String) (d : DiffResult) :
    (generateEvidenceBasedExplanation name d).bullets.what_changed ≠ [] := by
  simp only [generateEvidenceBasedExplanation, createDeterministicExplanation]
  split <;> simp_all

theorem generateModifiedExplanation_wc (dn pc nc : Option String) :
    (generateModifiedExplanation dn pc nc).bullets.what_changed ≠ [] := by
  simp only [generateModifiedExplanation]
  split
  · split
    · apply generateSOPExplanation_wc
      rename_i h
      simp only [Bool.and_eq_true, decide_eq_true_eq] at h
      exact List.ne_nil_of_length_pos h.2
    · apply generateEvidenceBasedExplanation_wc
  · simp [createDeterministicExplanation]

/-- C8 — the deterministic Explanation Generator is a total Lean function
(the embedding of "never throws": its one fallible JS operation,
`JSON.parse` inside `parseReason`, is locally caught), and for every
input — all five change types plus the `default` arm for an unrecognized
stored type, any document name, and arbitrary previous/new content
including `none`, `""` and placeholder strings — the result's
`bullets.what_changed` list is non-empty. -/
theorem c8_deterministic_generator_total (input : ExplanationInput) :
    (deterministicGenerateExplanation input).bullets.what_changed ≠ [] := by
  unfold deterministicGenerateExplanation
  cases input.changeRecord.changeType
  case created => exact generateCreatedExplanation_wc _ _
  case modified => exact generateModifiedExplanation_wc _ _ _
  all_goals simp [createDeterministicExplanation]

/-- witness for `c8_deterministic_generator_total` at a concrete
`modified` record with placeholder content. -/
theorem c8_deterministic_generator_total_witness :
    (deterministicGenerateExplanation
      { changeRecord := { id := "cr-8", changeType := ChangeType.modified,
                          detectedAt := "t" }
        previousContent := some "[PDF Placeholder]"
        newContent := some "" }).bullets.what_changed ≠ [] :=
  c8_deterministic_generator_total _

/-- condition under which the non-error path of
`generateAndStoreExplanation` stores `generated` rather than `skipped`. -/
def generatedCondition (generatorEnabled : Bool) (ct : ChangeType) : Bool :=
  generatorEnabled || ct = ChangeType.baseline || ct = ChangeType.renamed ||
    ct = ChangeType.deleted

/-- C9 — with the AI strategy disabled and a `created`/`modified` change,
the stored explanation is the complete deterministic one (text, bullets,
meta) but its status is `skipped`; and in the non-error path the status
is `generated` exactly when the generator is enabled or the type is
`baseline`/`renamed`/`deleted`. -/
theorem c9_disabled_ai_skipped (input : ExplanationInput) (fields : ExplFields)
    (hasClient : Bool) (aiOutcome : Except String ExplanationOutput)
    (fallbackWrite : Except String Unit) (now : String)
    (hct : input.changeRecord.changeType = ChangeType.created ∨
      input.changeRecord.changeType = ChangeType.modified) :
    (let res := generateAndStoreExplanation
      (Except.ok (replitGenerateExplanation false hasClient aiOutcome input))
      false input fields (Except.ok ()) fallbackWrite now
     res.explanationText = some (deterministicGenerateExplanation input).text ∧
     res.explanationBullets = some (deterministicGenerateExplanation input).bullets ∧
     res.explanationMeta = some (deterministicGenerateExplanation input).meta ∧
     res.explanationStatus = some ExplanationStatus.skipped) ∧
    ∀ (enabled : Bool) (output : ExplanationOutput),
      (generateAndStoreExplanation (Except.ok output) enabled input fields
        (Except.ok ()) fallbackWrite now).explanationStatus =
      some (if generatedCondition enabled input.changeRecord.changeType then
        ExplanationStatus.generated else ExplanationStatus.skipped) := by
  constructor
  · have hrep : replitGenerateExplanation false hasClient aiOutcome input =
        deterministicGenerateExplanation input := by
      unfold replitGenerateExplanation
      rcases hct with h | h <;> simp [h]
    rcases hct with h | h <;>
      simp [generateAndStoreExplanation, hrep, h]
  · intro enabled output
    rcases hct with h | h <;>
      simp [generateAndStoreExplanation, generatedCondition, h]

/-- witness for `c9_disabled_ai_skipped` at a concrete `created` input. -/
theorem c9_disabled_ai_skipped_witness :
    (let input : ExplanationInput :=
      { changeRecord := { id := "cr-9", changeType := ChangeType.created,
                          detectedAt := "t0" } }
     let res := generateAndStoreExplanation
      (Except.ok (replitGenerateExplanation false true
        (Except.error "unused") input))
      false input {} (Except.ok ()) (Except.ok ()) "t1"
     res.explanationText = some (deterministicGenerateExplanation input).text ∧
     res.explanationBullets = some (deterministicGenerateExplanation input).bullets ∧
     res.explanationMeta = some (deterministicGenerateExplanation input).meta ∧
     res.explanationStatus = some ExplanationStatus.skipped) ∧
    ∀ (enabled : Bool) (output : ExplanationOutput),
      (generateAndStoreExplanation (Except.ok output) enabled
        { changeRecord := { id := "cr-9", changeType := ChangeType.created,
                            detectedAt := "t0" } } {}
        (Except.ok ()) (Except.ok ()) "t1").explanationStatus =
      some (if generatedCondition enabled ChangeType.created then
        ExplanationStatus.generated else ExplanationStatus.skipped) :=
  c9_disabled_ai_skipped
    { changeRecord := { id := "cr-9", changeType := ChangeType.created,
                        detectedAt := "t0" } }
    {} true (Except.error "unused") (Except.ok ()) "t1" (Or.inl rfl)

/-- C1, counterexample — an AI failure (`transport error`) on a
`modified` record, with both stores succeeding: the record ends with the
deterministic explanation and status `generated`, but `explanationError`
is `none` — the originating AI error is caught inside
`ReplitAIExplanationGenerator.generateExplanation` (line 479 of
`explanationGenerator.ts`), only logged to the console, and never written
to the record, contradicting the claim that it is preserved as
diagnostic text. -/
theorem c1_counterexample :
    (let inputCE : ExplanationInput :=
      { changeRecord := { id := "cr-1", changeType := ChangeType.modified,
                          detectedAt := "t0" } }
     let res := generateAndStoreExplanation
      (Except.ok (replitGenerateExplanation true true
        (Except.error "transport error") inputCE))
      true inputCE {} (Except.ok ()) (Except.ok ()) "t1"
     res.explanationStatus = some ExplanationStatus.generated ∧
     res.explanationText = some (deterministicGenerateExplanation inputCE).text ∧
     res.explanationBullets =
       some (deterministicGenerateExplanation inputCE).bullets ∧
     res.explanationError = none) := by
  decide

def exceptIsError {α : Type} : Except String α → Bool
  | Except.error _ => true
  | Except.ok _ => false

/-- C1, amended — when the generative-AI path of an enabled AI generator
fails on a `created`/`modified` event, the generator itself falls back to
the deterministic strategy, and the record is stored with the
deterministic text/bullets/meta and status `generated` (not `failed`);
the originating AI error, however, is only logged: `explanationError` is
left unchanged on this path.  `explanationError` is populated (prefixed
`"AI failed: "`) only when the generator invocation or the primary store
itself throws and the fallback store succeeds; and `explanationStatus`
becomes `failed` exactly when such a throw occurs and the fallback store
also fails. -/
theorem c1_ai_failure_fallback (input : ExplanationInput) (fields : ExplFields)
    (e : String) (fw : Except String Unit) (now : String)
    (hct : input.changeRecord.changeType = ChangeType.created ∨
      input.changeRecord.changeType = ChangeType.modified) :
    (let out := replitGenerateExplanation true true (Except.error e) input
     let res := generateAndStoreExplanation (Except.ok out) true input fields
       (Except.ok ()) fw now
     out = deterministicGenerateExplanation input ∧
     res.explanationStatus = some ExplanationStatus.generated ∧
     res.explanationText = some (deterministicGenerateExplanation input).text ∧
     res.explanationBullets = some (deterministicGenerateExplanation input).bullets ∧
     res.explanationError = fields.explanationError) ∧
    (∀ (msg : String) (fw2 : Except String Unit),
      (storeFallbackExplanation msg input fields fw2 now).explanationError =
        some (if exceptIsError fw2 then msg else "AI failed: " ++ msg)) ∧
    ∀ (genOutcome : Except String ExplanationOutput) (ge : Bool)
      (pw fw2 : Except String Unit),
      ((generateAndStoreExplanation genOutcome ge input fields pw fw2 now).explanationStatus
          = some ExplanationStatus.failed ↔
        (exceptIsError genOutcome || exceptIsError pw) && exceptIsError fw2 = true) := by
  refine ⟨?_, ?_, ?_⟩
  · have hrep : replitGenerateExplanation true true (Except.error e) input =
        deterministicGenerateExplanation input := by
      unfold replitGenerateExplanation
      rcases hct with h | h <;> simp [h]
    rcases hct with h | h <;>
      simp [generateAndStoreExplanation, hrep, h, generatedCondition]
  · intro msg fw2
    cases fw2 <;> simp [storeFallbackExplanation, exceptIsError]
  · intro genOutcome ge pw fw2
    cases genOutcome <;> cases pw <;> cases fw2 <;>
      simp [generateAndStoreExplanation, storeFallbackExplanation, exceptIsError] <;>
      split <;> simp

/-- witness for `c1_ai_failure_fallback` at a concrete `modified` input
(all hypotheses discharged at `ChangeType.modified`). -/
theorem c1_ai_failure_fallback_witness :
    (let input : ExplanationInput :=
      { changeRecord := { id := "cr-1w", changeType := ChangeType.modified,
                          detectedAt := "t0" } }
     let out := replitGenerateExplanation true true
       (Except.error "bad payload") input
     let res := generateAndStoreExplanation (Except.ok out) true input {}
       (Except.ok ()) (Except.ok ()) "t1"
     out = deterministicGenerateExplanation input ∧
     res.explanationStatus = some ExplanationStatus.generated ∧
     res.explanationText = some (deterministicGenerateExplanation input).text ∧
     res.explanationBullets = some (deterministicGenerateExplanation input).bullets ∧
     res.explanationError = ExplFields.explanationError {}) ∧
    (∀ (msg : String) (fw2 : Except String Unit),
      (storeFallbackExplanation msg
        { changeRecord := { id := "cr-1w", changeType := ChangeType.modified,
                            detectedAt := "t0" } } {} fw2 "t1").explanationError =
        some (if exceptIsError fw2 then msg else "AI failed: " ++ msg)) ∧
    ∀ (genOutcome : Except String ExplanationOutput) (ge : Bool)
      (pw fw2 : Except String Unit),
      ((generateAndStoreExplanation genOutcome ge
          { changeRecord := { id := "cr-1w", changeType := ChangeType.modified,
                              detectedAt := "t0" } } {} pw fw2 "t1").explanationStatus
          = some ExplanationStatus.failed ↔
        (exceptIsError genOutcome || exceptIsError pw) && exceptIsError fw2 = true) :=
  c1_ai_failure_fallback
    { changeRecord := { id := "cr-1w", changeType := ChangeType.modified,
                        detectedAt := "t0" } }
    {} "bad payload" (Except.ok ()) "t1" (Or.inr rfl)

/-! ## Claim about the single-flight guard (C3) -/

/-- C3, counterexample — `runNow()` checks the folder configuration
*before* the guard, so with a run in progress it is possible to get a
result other than "already in progress": starting from a mid-run state
with a configured folder, `POST /api/scheduler` can blank the folder id
(`updateConfig` forwards any string, including `""`, and `""` is falsy);
`runNow()` then returns `No folder ID configured`, not
`Ingestion already in progress`, even though the guard is still set.
(The body is still not invoked, so only the claim's "returns an
'already in progress' result" conjunct fails.) -/
theorem c3_counterexample :
    (let st0 : SchedulerState :=
      { enabled := false, intervalMinutes := 60, folderId := some "folder-1",
        lastRun := none, nextRun := none, timer := false, hasCallback := true,
        ingestionInProgress := true }
     let st1 := updateConfig st0 { folderId := some "" } "t-next"
     st1.ingestionInProgress = true ∧
     (runNow st1 (Except.ok ()) (Except.ok ()) "run-2" "t2" "t3").2.1 =
       { runId := none, error := some "No folder ID configured" } ∧
     ¬((runNow st1 (Except.ok ()) (Except.ok ()) "run-2" "t2" "t3").2.1.error =
       some "Ingestion already in progress")) := by
  decide

/-- C3, amended — provided a folder id is configured (truthy), invoking
`runNow()` while the guard is set returns the distinguishable
`Ingestion already in progress` result, leaves the state unchanged and
produces no guard/body events (the run body is not invoked); and whenever
a run does proceed, the guard is set before the body starts, and it is
cleared — in the final state and as the last event — no matter whether
the body returns or throws, or the config save throws before the body
ever runs. -/
theorem c3_guard_single_flight (st : SchedulerState)
    (saveOutcome bodyOutcome : Except String Unit) (rid now nextT : String) :
    (jsTruthyStr st.folderId = true → st.ingestionInProgress = true →
      runNow st saveOutcome bodyOutcome rid now nextT =
        (st, { runId := none, error := some "Ingestion already in progress" }, [])) ∧
    (st.ingestionInProgress = false → jsTruthyStr st.folderId = true →
      st.hasCallback = true →
      (runNow st saveOutcome bodyOutcome rid now nextT).1.ingestionInProgress = false ∧
      (runNow st saveOutcome bodyOutcome rid now nextT).2.2 =
        (match saveOutcome with
         | Except.error _ => [SchedEvent.guardSet, SchedEvent.guardCleared]
         | Except.ok _ =>
           [SchedEvent.guardSet, SchedEvent.bodyStarted,
            SchedEvent.bodyFinished (match bodyOutcome with
              | Except.ok _ => true | Except.error _ => false),
            SchedEvent.guardCleared])) := by
  constructor
  · intro hf hp
    simp [runNow, hf, hp]
  · intro hp hf hc
    cases saveOutcome <;> cases bodyOutcome <;>
      simp [runNow, runScheduledIngestion, hf, hp, hc]

/-- witness for `c3_guard_single_flight`: the skip branch at a mid-run
state and the guard lifecycle at an idle state with a throwing body. -/
theorem c3_guard_single_flight_witness :
    (runNow
      { enabled := true, intervalMinutes := 60, folderId := some "f",
        lastRun := none, nextRun := none, timer := true, hasCallback := true,
        ingestionInProgress := true }
      (Except.ok ()) (Except.ok ()) "r1" "n1" "x1" =
      ({ enabled := true, intervalMinutes := 60, folderId := some "f",
         lastRun := none, nextRun := none, timer := true, hasCallback := true,
         ingestionInProgress := true },
       { runId := none, error := some "Ingestion already in progress" }, [])) ∧
    ((runNow
      { enabled := true, intervalMinutes := 60, folderId := some "f",
        lastRun := none, nextRun := none, timer := true, hasCallback := true,
        ingestionInProgress := false }
      (Except.ok ()) (Except.error "boom") "r1" "n1" "x1").1.ingestionInProgress
        = false ∧
     (runNow
      { enabled := true, intervalMinutes := 60, folderId := some "f",
        lastRun := none, nextRun := none, timer := true, hasCallback := true,
        ingestionInProgress := false }
      (Except.ok ()) (Except.error "boom") "r1" "n1" "x1").2.2 =
      [SchedEvent.guardSet, SchedEvent.bodyStarted, SchedEvent.bodyFinished false,
       SchedEvent.guardCleared]) :=
  ⟨(c3_guard_single_flight
      { enabled := true, intervalMinutes := 60, folderId := some "f",
        lastRun := none, nextRun := none, timer := true, hasCallback := true,
        ingestionInProgress := true }
      (Except.ok ()) (Except.ok ()) "r1" "n1" "x1").1 (by decide) (by decide),
   by
    have h := (c3_guard_single_flight
      { enabled := true, intervalMinutes := 60, folderId := some "f",
        lastRun := none, nextRun := none, timer := true, hasCallback := true,
        ingestionInProgress := false }
      (Except.ok ()) (Except.error "boom") "r1" "n1" "x1").2 (by decide) (by decide)
      (by decide)
    exact ⟨h.1, h.2⟩⟩

/-! ## Claims about chunk prioritization and summary counts (C5, C10) -/

theorem all_take_filter {α : Type} (l : List α) (p : α → Bool) (k : Nat) :
    ((l.filter p).take k).all p = true := by
  rw [List.all_eq_true]
  intro x hx
  exact List.of_mem_filter ((List.take_sublist k _).mem hx)

theorem filter_length_partition {α : Type} (l : List α) (p : α → Bool) :
    (l.filter p).length + (l.filter fun c => !p c).length = l.length := by
  induction l with
  | nil => rfl
  | cons a t ih =>
    by_cases h : p a <;> simp [List.filter_cons, h] <;> omega

/-- C5 — in every diff computation the returned chunk list decomposes as
the high-risk chunks followed by the risk-free chunks, each part a prefix
of the correspondingly filtered raw (pre-cap) chunk list — i.e. the
relative order within each class is the edit-script order, as a stable
sort gives; the list never exceeds `maxChunks` entries; and requirement
extraction runs on exactly this capped, prioritized list. -/
theorem c5_prioritized_capped_chunks (pc nc : String) (maxChunks : Nat) :
    (computeTextDiff pc nc maxChunks).chunks =
      ((coalescedChunks pc nc).filter chunkHasRisk).take maxChunks ++
      ((coalescedChunks pc nc).filter fun c => !chunkHasRisk c).take
        (maxChunks - ((coalescedChunks pc nc).filter chunkHasRisk).length) ∧
    (((coalescedChunks pc nc).filter chunkHasRisk).take maxChunks).all
      chunkHasRisk = true ∧
    (((coalescedChunks pc nc).filter fun c => !chunkHasRisk c).take
        (maxChunks - ((coalescedChunks pc nc).filter chunkHasRisk).length)).all
      (fun c => !chunkHasRisk c) = true ∧
    (computeTextDiff pc nc maxChunks).chunks.length ≤ maxChunks ∧
    (computeTextDiff pc nc maxChunks).requirements =
      extractRequirementsFromChunks (computeTextDiff pc nc maxChunks).chunks pc nc := by
  refine ⟨?_, all_take_filter _ _ _, all_take_filter _ _ _, ?_, rfl⟩
  · show prioritizeChunks (coalescedChunks pc nc) maxChunks = _
    unfold prioritizeChunks
    exact List.take_append_eq_append_take
  · show (prioritizeChunks (coalescedChunks pc nc) maxChunks).length ≤ maxChunks
    unfold prioritizeChunks
    exact List.length_take_le _ _

theorem coalesceOps_counts (pc nc : String) (ops : List DiffOp) :
    (coalesceOps pc nc ops).addedCount + (coalesceOps pc nc ops).removedCount +
      (coalesceOps pc nc ops).modifiedCount =
    (coalesceOps pc nc ops).chunks.length := by
  induction ops using coalesceOps.induct pc nc with
  | case1 => rfl
  | case2 v rest ih => simpa [coalesceOps] using ih
  | case3 v w rest2 ih => simp [coalesceOps]; omega
  | case4 v rest h ih => rw [coalesceOps.eq_def]; simp_all; omega
  | case5 w rest ih => simp [coalesceOps]; omega

/-- nine distinct paragraphs: a diff against empty previous content
produces nine `added` chunks, exceeding the default cap of 8. -/
def nineParas : String :=
  "P1\n\nP2\n\nP3\n\nP4\n\nP5\n\nP6\n\nP7\n\nP8\n\nP9"

/-- C10 — the summary counters tally every coalesced edit of the full
edit script before truncation: their sum equals the raw (pre-cap) chunk
count, hence is at least the returned chunk list's length; the returned
list itself never exceeds `maxChunks`; and on a concrete nine-paragraph
addition the sum (9) strictly exceeds the default cap while exactly 8
chunks are returned. -/
theorem c10_summary_counts_uncapped (pc nc : String) (maxChunks : Nat) :
    ((computeTextDiff pc nc maxChunks).summary.added +
      (computeTextDiff pc nc maxChunks).summary.removed +
      (computeTextDiff pc nc maxChunks).summary.modified =
      (coalescedChunks pc nc).length ∧
     (computeTextDiff pc nc maxChunks).chunks.length ≤
      (computeTextDiff pc nc maxChunks).summary.added +
      (computeTextDiff pc nc maxChunks).summary.removed +
      (computeTextDiff pc nc maxChunks).summary.modified ∧
     (computeTextDiff pc nc maxChunks).chunks.length ≤ maxChunks) ∧
    (computeTextDiff "" nineParas).summary.added +
      (computeTextDiff "" nineParas).summary.removed +
      (computeTextDiff "" nineParas).summary.modified = 9 ∧
    (computeTextDiff "" nineParas).chunks.length = 8 := by
  have h1 : (computeTextDiff pc nc maxChunks).summary.added +
      (computeTextDiff pc nc maxChunks).summary.removed +
      (computeTextDiff pc nc maxChunks).summary.modified =
      (coalescedChunks pc nc).length := coalesceOps_counts pc nc _
  refine ⟨⟨h1, ?_, ?_⟩, by decide, by decide⟩
  · rw [h1]
    show (prioritizeChunks (coalescedChunks pc nc) maxChunks).length ≤
      (coalescedChunks pc nc).length
    unfold prioritizeChunks
    calc ((((coalescedChunks pc nc).filter chunkHasRisk) ++
            ((coalescedChunks pc nc).filter fun c => !chunkHasRisk c)).take
              maxChunks).length ≤
        (((coalescedChunks pc nc).filter chunkHasRisk) ++
          ((coalescedChunks pc nc).filter fun c => !chunkHasRisk c)).length :=
          (List.take_sublist _ _).length_le
      _ = (coalescedChunks pc nc).length := by
          rw [List.length_append]
          exact filter_length_partition _ _
  · show (prioritizeChunks (coalescedChunks pc nc) maxChunks).length ≤ maxChunks
    unfold prioritizeChunks
    exact List.length_take_le _ _

/-! ## Claim about the diff backtrack (C4) -/

/-- the `same`-operation values of an edit script, in order. -/
def sameValues (ops : List DiffOp) : List String :=
  ops.filterMap fun op =>
    match op with
    | DiffOp.same v => some v
    | _ => none

theorem sameValues_append_added (l : List DiffOp) (x : String) :
    sameValues (l ++ [DiffOp.added x]) = sameValues l := by
  simp [sameValues, List.filterMap_append]

theorem sameValues_append_removed (l : List DiffOp) (x : String) :
    sameValues (l ++ [DiffOp.removed x]) = sameValues l := by
  simp [sameValues, List.filterMap_append]

theorem sameValues_append_same (l : List DiffOp) (x : String) :
    sameValues (l ++ [DiffOp.same x]) = sameValues l ++ [x] := by
  simp [sameValues, List.filterMap_append]

theorem sameValues_backtrackRowZero (b : List String) (j : Nat) :
    sameValues (backtrackRowZero b j) = [] := by
  induction j with
  | zero => rfl
  | succ j ih => rw [backtrackRowZero, sameValues_append_added, ih]

theorem take_sublist_take_succ {α : Type} (l : List α) (n : Nat) :
    (l.take n).Sublist (l.take (n + 1)) := by
  rw [List.take_succ]
  exact List.sublist_append_left _ _

theorem getD_take_succ {α : Type} [Inhabited α] (l : List α) (n : Nat)
    (h : n < l.length) : l.take (n + 1) = l.take n ++ [l.getD n default] := by
  rw [List.take_succ, List.getElem?_eq_getElem h]
  rw [List.getD_eq_getElem?_getD, List.getElem?_eq_getElem h]
  rfl

/-- the common-subsequence invariant of the backtrack, generalized over
the loop state `(i, j)`. -/
theorem backtrack_sames_sublist (a b : List String) :
    ∀ i j, i ≤ a.length → j ≤ b.length →
      (sameValues (backtrackDiff a b i j)).Sublist (a.take i) ∧
      (sameValues (backtrackDiff a b i j)).Sublist (b.take j) := by
  intro i
  induction i with
  | zero =>
    intro j _ _
    constructor <;>
      simp [backtrackDiff, sameValues_backtrackRowZero]
  | succ i ih =>
    intro j
    induction j with
    | zero =>
      intro hi hj
      have h0 := ih 0 (Nat.le_of_succ_le hi) (Nat.zero_le _)
      have e : backtrackDiff a b (i + 1) 0 =
          backtrackDiff a b i 0 ++ [DiffOp.removed (a.getD i "")] := rfl
      rw [e, sameValues_append_removed]
      exact ⟨h0.1.trans (take_sublist_take_succ a i), h0.2⟩
    | succ j ihj =>
      intro hi hj
      have e1 : backtrackDiff a b (i + 1) (j + 1) =
          if a.getD i "" = b.getD j "" then
            backtrackDiff a b i j ++ [DiffOp.same (a.getD i "")]
          else if lcsMatrix a b i (j + 1) ≤ lcsMatrix a b (i + 1) j then
            backtrackDiff a b (i + 1) j ++ [DiffOp.added (b.getD j "")]
          else
            backtrackDiff a b i (j + 1) ++ [DiffOp.removed (a.getD i "")] := rfl
      rw [e1]
      by_cases h : a.getD i "" = b.getD j ""
      · rw [if_pos h, sameValues_append_same]
        have hrec := ih j (Nat.le_of_succ_le hi) (Nat.le_of_succ_le hj)
        constructor
        · rw [getD_take_succ a i (Nat.lt_of_succ_le hi)]
          exact hrec.1.append (List.Sublist.refl _)
        · rw [getD_take_succ b j (Nat.lt_of_succ_le hj), h]
          exact hrec.2.append (List.Sublist.refl _)
      · rw [if_neg h]
        by_cases h2 : lcsMatrix a b i (j + 1) ≤ lcsMatrix a b (i + 1) j
        · rw [if_pos h2, sameValues_append_added]
          have hrec := ihj hi (Nat.le_of_succ_le hj)
          exact ⟨hrec.1, hrec.2.trans (take_sublist_take_succ b j)⟩
        · rw [if_neg h2, sameValues_append_removed]
          have hrec := ih (j + 1) (Nat.le_of_succ_le hi) hj
          exact ⟨hrec.1.trans (take_sublist_take_succ a i), hrec.2⟩

/-- C4 — take any two input strings and their paragraph sequences `a`
and `b`.  (1) The `same` operations of the edit script produced by the
diff backtrack, read in order, form a common subsequence of `a` and of
`b`.  (2) At every backtrack step with mismatching paragraphs where the
two predecessor DP cells are equal (`dp[i][j-1] = dp[i-1][j]`, here at
the loop state `(i+1, j+1)`), the `added` branch is chosen in preference
to `removed`. -/
theorem c4_backtrack_common_subsequence (previousContent newContent : String) :
    ((sameValues
        (backtrackDiff (splitIntoParagraphs previousContent)
          (splitIntoParagraphs newContent)
          (splitIntoParagraphs previousContent).length
          (splitIntoParagraphs newContent).length)).Sublist
      (splitIntoParagraphs previousContent) ∧
     (sameValues
        (backtrackDiff (splitIntoParagraphs previousContent)
          (splitIntoParagraphs newContent)
          (splitIntoParagraphs previousContent).length
          (splitIntoParagraphs newContent).length)).Sublist
      (splitIntoParagraphs newContent)) ∧
    ∀ i j,
      (splitIntoParagraphs previousContent).getD i "" ≠
        (splitIntoParagraphs newContent).getD j "" →
      lcsMatrix (splitIntoParagraphs previousContent)
          (splitIntoParagraphs newContent) (i + 1) j =
        lcsMatrix (splitIntoParagraphs previousContent)
          (splitIntoParagraphs newContent) i (j + 1) →
      backtrackDiff (splitIntoParagraphs previousContent)
          (splitIntoParagraphs newContent) (i + 1) (j + 1) =
        backtrackDiff (splitIntoParagraphs previousContent)
          (splitIntoParagraphs newContent) (i + 1) j ++
          [DiffOp.added ((splitIntoParagraphs newContent).getD j "")] := by
  constructor
  · have h := backtrack_sames_sublist (splitIntoParagraphs previousContent)
      (splitIntoParagraphs newContent)
      (splitIntoParagraphs previousContent).length
      (splitIntoParagraphs newContent).length (Nat.le_refl _) (Nat.le_refl _)
    rw [List.take_length, List.take_length] at h
    exact h
  · intro i j hne heq
    have e1 : backtrackDiff (splitIntoParagraphs previousContent)
        (splitIntoParagraphs newContent) (i + 1) (j + 1) =
        if (splitIntoParagraphs previousContent).getD i "" =
            (splitIntoParagraphs newContent).getD j "" then
          backtrackDiff (splitIntoParagraphs previousContent)
            (splitIntoParagraphs newContent) i j ++
            [DiffOp.same ((splitIntoParagraphs previousContent).getD i "")]
        else if lcsMatrix (splitIntoParagraphs previousContent)
            (splitIntoParagraphs newContent) i (j + 1) ≤
          lcsMatrix (splitIntoParagraphs previousContent)
            (splitIntoParagraphs newContent) (i + 1) j then
          backtrackDiff (splitIntoParagraphs previousContent)
            (splitIntoParagraphs newContent) (i + 1) j ++
            [DiffOp.added ((splitIntoParagraphs newContent).getD j "")]
        else
          backtrackDiff (splitIntoParagraphs previousContent)
            (splitIntoParagraphs newContent) i (j + 1) ++
            [DiffOp.removed ((splitIntoParagraphs previousContent).getD i "")] := rfl
    rw [e1, if_neg hne, if_pos (Nat.le_of_eq heq.symm)]

/-- witness for the tie-break hypothesis of
`c4_backtrack_common_subsequence`, at `"A"` vs `"B"` (paragraph lists
`["A"]`, `["B"]`, mismatch at `(1,1)` with equal predecessor cells). -/
theorem c4_backtrack_common_subsequence_witness :
    backtrackDiff (splitIntoParagraphs "A") (splitIntoParagraphs "B") 1 1 =
      backtrackDiff (splitIntoParagraphs "A") (splitIntoParagraphs "B") 1 0 ++
        [DiffOp.added ((splitIntoParagraphs "B").getD 0 "")] :=
  (c4_backtrack_common_subsequence "A" "B").2 0 0 (by decide) (by decide)

/-! ## Claim about hash-equal files (C6) -/

theorem find?_map_of_pred_preserved {α : Type} (l : List α) (p : α → Bool)
    (g : α → α) (hg : ∀ x, p (g x) = p x) :
    (l.map g).find? p = (l.find? p).map g := by
  induction l with
  | nil => rfl
  | cons a t ih =>
    by_cases h : p a = true
    · rw [List.map_cons, List.find?_cons_of_pos _ ((hg a).trans h),
        List.find?_cons_of_pos _ h]
      rfl
    · rw [List.map_cons, List.find?_cons_of_neg _ (by rw [hg]; simpa using h),
        List.find?_cons_of_neg _ (by simpa using h), ih]

theorem getDoc_update (db : DBState) (id : String) (f : Document → Document)
    (gid : String) (hf : ∀ d, (f d).googleDriveId = d.googleDriveId) :
    getDocumentByGoogleDriveId (updateDocumentById db id f) gid =
      (getDocumentByGoogleDriveId db gid).map
        (fun d => if d.id = id then f d else d) := by
  unfold getDocumentByGoogleDriveId updateDocumentById
  exact find?_map_of_pred_preserved _ _ _
    (fun d => by by_cases h : d.id = id <;> simp [h, hf])

/-- current version id, hash and last-modified of a document row. -/
def docVHM (d : Document) : String × String × String :=
  (d.currentVersionId, d.currentHash, d.lastModified)

def isModifiedRecord (r : ChangeRecord) : Bool :=
  r.changeType = ChangeType.modified

theorem updateDocumentById_versions (db : DBState) (id : String)
    (f : Document → Document) :
    (updateDocumentById db id f).versions = db.versions := rfl

theorem map_docVHM_update (o : Option Document) (did : String)
    (f : Document → Document) (hf : ∀ d, docVHM (f d) = docVHM d) :
    o.map (fun d => docVHM (if d.id = did then f d else d)) = o.map docVHM := by
  cases o with
  | none => rfl
  | some d =>
    by_cases h : d.id = did <;> simp [h, hf]

/-- no `modified` record is emitted by the found-document arm when the
hash is unchanged. -/
theorem processExistingDoc_same_hash_records (cfg : IngestCfg) (isB : Bool)
    (st : RunState) (file : DriveFile) (content : String) (doc : Document) :
    (processExistingDoc cfg isB st file content doc.currentHash doc).newRecords.countP
        isModifiedRecord = st.newRecords.countP isModifiedRecord := by
  unfold processExistingDoc
  by_cases hdel : doc.isDeleted = true <;>
    by_cases hren : file.name = doc.fileName <;>
    by_cases hb : isB = true <;>
    simp_all [addRecord, List.countP_append, List.countP_cons, isModifiedRecord]

/-- no `DocumentVersion` is created by the found-document arm when the
hash is unchanged. -/
theorem processExistingDoc_same_hash_versions (cfg : IngestCfg) (isB : Bool)
    (st : RunState) (file : DriveFile) (content : String) (doc : Document) :
    (processExistingDoc cfg isB st file content doc.currentHash doc).db.versions =
      st.db.versions := by
  unfold processExistingDoc
  by_cases hdel : doc.isDeleted = true <;>
    by_cases hren : file.name = doc.fileName <;>
    by_cases hb : isB = true <;>
    simp_all [addRecord, updateDocumentById_versions]

/-- absent a rename, the found-document arm with an unchanged hash leaves
every stored document's current version/hash/lastModified unchanged. -/
theorem getDoc_ignore (db : DBState) (vers : List DocumentVersion)
    (recs : List ChangeRecord) (gid : String) :
    getDocumentByGoogleDriveId ⟨db.documents, vers, recs⟩ gid =
      getDocumentByGoogleDriveId db gid := rfl

theorem processExistingDoc_same_hash_doc (cfg : IngestCfg) (isB : Bool)
    (st : RunState) (file : DriveFile) (content : String) (doc : Document)
    (hren : file.name = doc.fileName) (gid : String) :
    (getDocumentByGoogleDriveId
        (processExistingDoc cfg isB st file content doc.currentHash doc).db gid).map
      docVHM =
    (getDocumentByGoogleDriveId st.db gid).map docVHM := by
  unfold processExistingDoc
  by_cases hdel : doc.isDeleted = true <;>
    by_cases hb : isB = true <;>
    simp_all [addRecord, getDoc_ignore, getDoc_update, Option.map_map] <;>
    first
      | rfl
      | (cases hod : getDocumentByGoogleDriveId st.db gid with
         | none => rfl
         | some d => by_cases h : d.id = doc.id <;> simp [docVHM, h])

/-- C6 — a supported file whose computed content hash equals the stored
document's `currentHash` emits no `modified` ChangeRecord and creates no
new `DocumentVersion` (the file's `modifiedTime` plays no role in that
decision); and absent a simultaneous rename, the stored document keeps
its `currentVersionId`, `currentHash` and `lastModified` unchanged. -/
theorem c6_hash_equal_frame (cfg : IngestCfg) (isB : Bool) (st : RunState)
    (file : DriveFile) (doc : Document)
    (hsup : supportedMimes.contains file.mimeType = true)
    (hfound : getDocumentByGoogleDriveId st.db file.id = some doc)
    (hhash : computeFileHash cfg file (cfg.extract file) = doc.currentHash) :
    ((processFile cfg isB st file).newRecords.countP isModifiedRecord =
      st.newRecords.countP isModifiedRecord) ∧
    (processFile cfg isB st file).db.versions = st.db.versions ∧
    (file.name = doc.fileName →
      (getDocumentByGoogleDriveId (processFile cfg isB st file).db file.id).map
        docVHM = some (docVHM doc)) := by
  have hgoal : processFile cfg isB st file =
      (if cfg.extract file = "" then
        { st with currentDriveIds := st.currentDriveIds ++ [file.id],
                  docsProcessed := st.docsProcessed + 1 }
      else processExistingDoc cfg isB
        { st with currentDriveIds := st.currentDriveIds ++ [file.id],
                  docsProcessed := st.docsProcessed + 1 }
        file (cfg.extract file) (computeFileHash cfg file (cfg.extract file)) doc) := by
    unfold processFile
    rw [if_neg (by rw [hsup]; simp)]
    by_cases hc : cfg.extract file = ""
    · rw [if_pos hc, if_pos hc]
    · rw [if_neg hc, if_neg hc]
      have : getDocumentByGoogleDriveId
          ({ st with currentDriveIds := st.currentDriveIds ++ [file.id],
                     docsProcessed := st.docsProcessed + 1 } : RunState).db file.id =
          some doc := hfound
      rw [this]
  rw [hgoal]
  by_cases hc : cfg.extract file = ""
  · rw [if_pos hc]
    refine ⟨rfl, rfl, fun _ => ?_⟩
    show (getDocumentByGoogleDriveId st.db file.id).map docVHM = some (docVHM doc)
    rw [hfound]
    rfl
  · rw [if_neg hc, hhash]
    refine ⟨?_, ?_, fun hname => ?_⟩
    · exact processExistingDoc_same_hash_records cfg isB _ file _ doc
    · exact processExistingDoc_same_hash_versions cfg isB _ file _ doc
    · rw [processExistingDoc_same_hash_doc cfg isB _ file _ doc hname file.id]
      show (getDocumentByGoogleDriveId st.db file.id).map docVHM = some (docVHM doc)
      rw [hfound]
      rfl

/-- witness for `c6_hash_equal_frame`: one tracked Google Doc whose
listing entry has a new `modifiedTime` but identical content hash. -/
theorem c6_hash_equal_frame_witness :
    (let cfg : IngestCfg :=
      { extract := fun _ => "the content", hashFn := fun s => "h-" ++ s,
        now := "t9" }
     let doc : Document :=
      { id := "d1", googleDriveId := "g1", fileName := "Doc One",
        mimeType := "application/vnd.google-apps.document", lastModified := "t1",
        currentVersionId := "v1", currentHash := "sha256:h-the content" }
     let st : RunState :=
      { db := { documents := [doc], versions := [], changeRecords := [] },
        newRecords := [], currentDriveIds := [], changesDetected := 0,
        docsProcessed := 0, ctr := 0 }
     let file : DriveFile :=
      { id := "g1", name := "Doc One",
        mimeType := "application/vnd.google-apps.document",
        modifiedTime := "t-changed" }
     ((processFile cfg false st file).newRecords.countP isModifiedRecord =
        st.newRecords.countP isModifiedRecord) ∧
     (processFile cfg false st file).db.versions = st.db.versions ∧
     (file.name = doc.fileName →
       (getDocumentByGoogleDriveId (processFile cfg false st file).db file.id).map
         docVHM = some (docVHM doc))) :=
  c6_hash_equal_frame _ false _ _ _ (by decide) (by decide) (by decide)

/-! ## Claim about baseline runs (C2) -/

def isCreatedRecord (r : ChangeRecord) : Bool :=
  r.changeType = ChangeType.created

def isBaselineRecord (r : ChangeRecord) : Bool :=
  r.changeType = ChangeType.baseline

/-- in a baseline run the found-document arm emits no `created` and no
`baseline` record (reappearance records are suppressed; rename/modify
records have other types) and does not touch `docsProcessed`. -/
theorem processExistingDoc_baseline_counts (cfg : IngestCfg) (st : RunState)
    (file : DriveFile) (content hash : String) (doc : Document) :
    ((processExistingDoc cfg true st file content hash doc).newRecords.countP
        isCreatedRecord = st.newRecords.countP isCreatedRecord) ∧
    ((processExistingDoc cfg true st file content hash doc).newRecords.countP
        isBaselineRecord = st.newRecords.countP isBaselineRecord) ∧
    (processExistingDoc cfg true st file content hash doc).docsProcessed =
      st.docsProcessed := by
  unfold processExistingDoc
  by_cases hdel : doc.isDeleted = true <;>
    by_cases hren : file.name = doc.fileName <;>
    by_cases hcc : hash = doc.currentHash <;>
    simp_all [addRecord, List.countP_append, List.countP_cons,
      isCreatedRecord, isBaselineRecord]

/-- one loop iteration of a baseline run: no `created`/`baseline` record,
and `docsProcessed` increments exactly on supported files. -/
theorem processFile_baseline_counts (cfg : IngestCfg) (st : RunState)
    (file : DriveFile) :
    ((processFile cfg true st file).newRecords.countP isCreatedRecord =
      st.newRecords.countP isCreatedRecord) ∧
    ((processFile cfg true st file).newRecords.countP isBaselineRecord =
      st.newRecords.countP isBaselineRecord) ∧
    (processFile cfg true st file).docsProcessed =
      st.docsProcessed +
        (if supportedMimes.contains file.mimeType then 1 else 0) := by
  unfold processFile
  by_cases hsup : supportedMimes.contains file.mimeType = true
  · rw [if_neg (by rw [hsup]; simp), if_pos hsup]
    by_cases hc : cfg.extract file = ""
    · rw [if_pos hc]
      exact ⟨rfl, rfl, rfl⟩
    · rw [if_neg hc]
      cases hfo : getDocumentByGoogleDriveId
          ({ st with currentDriveIds := st.currentDriveIds ++ [file.id],
                     docsProcessed := st.docsProcessed + 1 } : RunState).db
          file.id with
      | none => exact ⟨rfl, rfl, rfl⟩
      | some doc =>
        exact processExistingDoc_baseline_counts cfg _ file _ _ doc
  · rw [if_pos (by simpa using hsup), if_neg (by simpa using hsup)]
    simp

theorem foldl_processFile_baseline_counts (cfg : IngestCfg)
    (files : List DriveFile) : ∀ st : RunState,
    ((files.foldl (processFile cfg true) st).newRecords.countP isCreatedRecord =
      st.newRecords.countP isCreatedRecord) ∧
    ((files.foldl (processFile cfg true) st).newRecords.countP isBaselineRecord =
      st.newRecords.countP isBaselineRecord) ∧
    (files.foldl (processFile cfg true) st).docsProcessed =
      st.docsProcessed +
        (files.filter fun f => supportedMimes.contains f.mimeType).length := by
  induction files with
  | nil => intro st; simp
  | cons f t ih =>
    intro st
    obtain ⟨h1, h2, h3⟩ := processFile_baseline_counts cfg st f
    obtain ⟨g1, g2, g3⟩ := ih (processFile cfg true st f)
    refine ⟨(List.foldl_cons _ _ ▸ g1).trans h1,
      (List.foldl_cons _ _ ▸ g2).trans h2, ?_⟩
    rw [List.foldl_cons, g3, h3, List.filter_cons]
    by_cases hs : supportedMimes.contains f.mimeType = true
    · have hs2 : (fun f => supportedMimes.contains f.mimeType) f = true := hs
      rw [if_pos hs, if_pos hs2, List.length_cons]
      omega
    · have hs2 : ¬((fun f => supportedMimes.contains f.mimeType) f = true) := hs
      rw [if_neg hs, if_neg hs2]
      omega

/-- the deletion-detection step emits only `deleted` records and leaves
`docsProcessed` alone. -/
theorem softDeleteStep_counts (cfg : IngestCfg) (st : RunState) (doc : Document) :
    ((softDeleteStep cfg st doc).newRecords.countP isCreatedRecord =
      st.newRecords.countP isCreatedRecord) ∧
    ((softDeleteStep cfg st doc).newRecords.countP isBaselineRecord =
      st.newRecords.countP isBaselineRecord) ∧
    (softDeleteStep cfg st doc).docsProcessed = st.docsProcessed := by
  unfold softDeleteStep
  by_cases h : st.currentDriveIds.contains doc.googleDriveId <;>
    simp_all [addRecord, List.countP_append, List.countP_cons,
      isCreatedRecord, isBaselineRecord]

theorem foldl_softDeleteStep_counts (cfg : IngestCfg) (docs : List Document) :
    ∀ st : RunState,
    ((docs.foldl (softDeleteStep cfg) st).newRecords.countP isCreatedRecord =
      st.newRecords.countP isCreatedRecord) ∧
    ((docs.foldl (softDeleteStep cfg) st).newRecords.countP isBaselineRecord =
      st.newRecords.countP isBaselineRecord) ∧
    (docs.foldl (softDeleteStep cfg) st).docsProcessed = st.docsProcessed := by
  induction docs with
  | nil => intro st; simp
  | cons d t ih =>
    intro st
    obtain ⟨h1, h2, h3⟩ := softDeleteStep_counts cfg st d
    obtain ⟨g1, g2, g3⟩ := ih (softDeleteStep cfg st d)
    exact ⟨(List.foldl_cons _ _ ▸ g1).trans h1,
      (List.foldl_cons _ _ ▸ g2).trans h2,
      (List.foldl_cons _ _ ▸ g3).trans h3⟩

/-- C2 — an ingestion run that starts with zero known documents
(including soft-deleted ones; the check is made once, before any file is
processed) and sees `n ≥ 1` supported files emits exactly one ChangeRecord
of type `baseline`, carrying `documentId = null` and
`reason.baselineDocCount = n`, and zero `created` records; `n` is also
the run's reported `documentsProcessed`. -/
theorem c2_baseline_run (cfg : IngestCfg) (db0 : DBState) (files : List DriveFile)
    (hempty : db0.documents = [])
    (hn : 1 ≤ (files.filter fun f => supportedMimes.contains f.mimeType).length) :
    (((startIngestion cfg db0 files).newRecords.filter isBaselineRecord).map
        (fun r => (r.documentId, (r.reason.getD {}).baselineDocCount)) =
      [(none, some ((files.filter fun f => supportedMimes.contains f.mimeType).length))]) ∧
    (startIngestion cfg db0 files).newRecords.countP isCreatedRecord = 0 ∧
    (startIngestion cfg db0 files).docsProcessed =
      (files.filter fun f => supportedMimes.contains f.mimeType).length := by
  have hb : decide (getTotalDocumentCount db0 = 0) = true := by
    simp [getTotalDocumentCount, hempty]
  simp only [startIngestion, hb]
  set st0 : RunState :=
    { db := db0, newRecords := [], currentDriveIds := [],
      changesDetected := 0, docsProcessed := 0, ctr := 0 } with hst0
  obtain ⟨l1, l2, l3⟩ := foldl_processFile_baseline_counts cfg files st0
  obtain ⟨m1, m2, m3⟩ :=
    foldl_softDeleteStep_counts cfg
      (getActiveDocuments (files.foldl (processFile cfg true) st0).db)
      (files.foldl (processFile cfg true) st0)
  set st2 : RunState := deletionDetection cfg (files.foldl (processFile cfg true) st0)
    with hst2
  have hcreated : st2.newRecords.countP isCreatedRecord = 0 := by
    rw [hst2, deletionDetection, m1, l1]
    simp [hst0]
  have hbaseline : st2.newRecords.countP isBaselineRecord = 0 := by
    rw [hst2, deletionDetection, m2, l2]
    simp [hst0]
  have hdocs : st2.docsProcessed =
      (files.filter fun f => supportedMimes.contains f.mimeType).length := by
    rw [hst2, deletionDetection, m3, l3]
    simp [hst0]
  have hfilter : st2.newRecords.filter isBaselineRecord = [] :=
    List.filter_eq_nil_iff.mpr (by
      intro r hr
      have := List.countP_eq_zero.mp hbaseline r hr
      simpa using this)
  have hpos : (true && decide (0 < st2.docsProcessed)) = true := by
    rw [hdocs]
    simpa using hn
  unfold baselineSummary
  rw [hpos, if_pos rfl]
  constructor
  · simp only [addRecord, List.filter_append, hfilter]
    simp [isBaselineRecord, hdocs]
  constructor
  · simp only [addRecord, List.countP_append, hcreated]
    simp [isCreatedRecord]
  · simp only [addRecord]
    exact hdocs

/-- witness for `c2_baseline_run`: three supported files against an empty
store yield one `baseline` record with `baselineDocCount = 3` and no
`created` record. -/
theorem c2_baseline_run_witness :
    (let cfg : IngestCfg :=
      { extract := fun f => "text-" ++ f.id, hashFn := fun s => "h-" ++ s,
        now := "t0" }
     let gdoc := "application/vnd.google-apps.document"
     let files : List DriveFile :=
      [{ id := "g1", name := "One", mimeType := gdoc, modifiedTime := "t1" },
       { id := "g2", name := "Two", mimeType := gdoc, modifiedTime := "t2" },
       { id := "g3", name := "Three", mimeType := gdoc, modifiedTime := "t3" }]
     (((startIngestion cfg ⟨[], [], []⟩ files).newRecords.filter
          isBaselineRecord).map
        (fun r => (r.documentId, (r.reason.getD {}).baselineDocCount)) =
       [(none, some ((files.filter fun f =>
          supportedMimes.contains f.mimeType).length))]) ∧
     (startIngestion cfg ⟨[], [], []⟩ files).newRecords.countP isCreatedRecord = 0 ∧
     (startIngestion cfg ⟨[], [], []⟩ files).docsProcessed =
       (files.filter fun f => supportedMimes.contains f.mimeType).length) :=
  c2_baseline_run _ _ _ rfl (by decide)

/-! ## Claim about requirement extraction from modified chunks (C7)

The source compares each (keyword-filtered) after-sentence against the
keyword-filtered *before*-sentences, while the spec says "among
before-text sentences".  The two agree because the keyword filter is
invariant under the normalization (`toLowerCase().trim()`) used for the
comparison: every keyword is whitespace-free at its ends, so substring
containment in a lowercased sentence is unaffected by trimming it.  The
lemmas below prove that invariance. -/

theorem isPrefixOf_cons_cons (a c : Char) (t ls : List Char) :
    (a :: t).isPrefixOf (c :: ls) = (a == c && t.isPrefixOf ls) := rfl

theorem isPrefixOf_nil_left (l : List Char) : List.isPrefixOf [] l = true := by
  cases l <;> rfl

theorem mem_of_isPrefixOf {n l : List Char} (h : n.isPrefixOf l = true) :
    ∀ x ∈ n, x ∈ l := by
  induction n generalizing l with
  | nil => intro x hx; cases hx
  | cons a t ih =>
    cases l with
    | nil => cases h
    | cons c ls =>
      rw [isPrefixOf_cons_cons] at h
      obtain ⟨h1, h2⟩ := Bool.and_eq_true_iff.mp h
      intro x hx
      rcases List.mem_cons.mp hx with hx | hx
      · subst hx
        rw [eq_of_beq h1]
        exact List.mem_cons_self _ _
      · exact List.mem_cons_of_mem _ (ih h2 x hx)

theorem isPrefixOf_all_ws_false {n : List Char} (lc : Char)
    (hlast : n.getLast? = some lc) (hlc : isWS lc = false) :
    ∀ (w : List Char), (∀ x ∈ w, isWS x = true) → n.isPrefixOf w = false := by
  intro w hw
  by_contra hcon
  have hp : n.isPrefixOf w = true := by
    cases h : n.isPrefixOf w
    · exact absurd h hcon
    · rfl
  have hmem : lc ∈ n := List.mem_of_mem_getLast? hlast
  have : isWS lc = true := hw lc (mem_of_isPrefixOf hp lc hmem)
  rw [hlc] at this
  cases this

theorem containsL_all_ws_false {n : List Char} (lc : Char)
    (hlast : n.getLast? = some lc) (hlc : isWS lc = false) :
    ∀ (w : List Char), (∀ x ∈ w, isWS x = true) → containsL n w = false := by
  intro w
  induction w with
  | nil =>
    intro _
    show n.isEmpty = false
    cases n with
    | nil => cases hlast
    | cons a t => rfl
  | cons c w' ih =>
    intro hw
    show (n.isPrefixOf (c :: w') || containsL n w') = false
    rw [isPrefixOf_all_ws_false lc hlast hlc (c :: w') hw,
      ih fun x hx => hw x (List.mem_cons_of_mem _ hx)]
    rfl

theorem containsL_append_ws_left (h0 : Char) (t : List Char)
    (hh0 : isWS h0 = false) :
    ∀ (w m : List Char), (∀ x ∈ w, isWS x = true) →
      containsL (h0 :: t) (w ++ m) = containsL (h0 :: t) m := by
  intro w
  induction w with
  | nil => intro m _; rfl
  | cons c w' ih =>
    intro m hw
    have hc : isWS c = true := hw c (List.mem_cons_self _ _)
    have hne : (h0 == c) = false := by
      rw [beq_eq_false_iff_ne]
      intro he
      rw [he, hc] at hh0
      cases hh0
    show ((h0 :: t).isPrefixOf (c :: (w' ++ m)) || containsL (h0 :: t) (w' ++ m)) = _
    rw [isPrefixOf_cons_cons, hne,
      ih m fun x hx => hw x (List.mem_cons_of_mem _ hx)]
    rfl

theorem isPrefixOf_append_ws_right {n : List Char} (lc : Char)
    (hlast : n.getLast? = some lc) (hlc : isWS lc = false) :
    ∀ (m w : List Char), (∀ x ∈ w, isWS x = true) →
      n.isPrefixOf (m ++ w) = n.isPrefixOf m := by
  induction n generalizing lc with
  | nil =>
    intro m w _
    rw [isPrefixOf_nil_left, isPrefixOf_nil_left]
  | cons a t ih =>
    intro m w hw
    cases m with
    | nil =>
      rw [List.nil_append]
      rw [isPrefixOf_all_ws_false lc hlast hlc w hw]
      rfl
    | cons c m' =>
      rw [List.cons_append, isPrefixOf_cons_cons, isPrefixOf_cons_cons]
      cases t with
      | nil => rw [isPrefixOf_nil_left, isPrefixOf_nil_left]
      | cons b t' =>
        have hlast' : (b :: t').getLast? = some lc := by
          rw [← hlast, List.getLast?_cons_cons]
        rw [ih lc hlast' hlc m' w hw]

theorem containsL_append_ws_right {n : List Char} (lc : Char)
    (hlast : n.getLast? = some lc) (hlc : isWS lc = false) :
    ∀ (m w : List Char), (∀ x ∈ w, isWS x = true) →
      containsL n (m ++ w) = containsL n m := by
  intro m
  induction m with
  | nil =>
    intro w hw
    rw [List.nil_append, containsL_all_ws_false lc hlast hlc w hw]
    show _ = n.isEmpty
    cases n with
    | nil => cases hlast
    | cons a t => rfl
  | cons c m' ih =>
    intro w hw
    show (n.isPrefixOf (c :: (m' ++ w)) || containsL n (m' ++ w)) = _
    rw [show c :: (m' ++ w) = (c :: m') ++ w from rfl,
      isPrefixOf_append_ws_right lc hlast hlc (c :: m') w hw, ih w hw]
    rfl

/-- needles that start and end with a non-whitespace character (true of
every vocabulary keyword, checked by `decide` where used). -/
def goodNeedle (n : List Char) : Bool :=
  match n.head?, n.getLast? with
  | some h0, some lc => !isWS h0 && !isWS lc
  | _, _ => false

/-- substring containment of a whitespace-free-edged needle is invariant
under trimming the haystack. -/
theorem containsL_trim_of_good (n : List Char) (hg : goodNeedle n = true)
    (l : List Char) : containsL n l = containsL n (trimL l) := by
  cases hn : n with
  | nil => rw [hn] at hg; cases hg
  | cons h0 t =>
    rw [hn] at hg
    obtain ⟨hlc, hh0⟩ : ∃ lc, (h0 :: t).getLast? = some lc ∧ isWS h0 = false ∧
        isWS lc = false := by
      unfold goodNeedle at hg
      cases hgl : (h0 :: t).getLast? with
      | none => rw [List.head?_cons, hgl] at hg; cases hg
      | some lc =>
        rw [List.head?_cons, hgl] at hg
        obtain ⟨g1, g2⟩ := Bool.and_eq_true_iff.mp hg
        exact ⟨lc, rfl, by simpa using g1, by simpa using g2⟩
    obtain ⟨hgl, hh0', hlc'⟩ := hh0
    have step1 : containsL (h0 :: t) l = containsL (h0 :: t) (l.dropWhile isWS) := by
      conv =>
        lhs
        rw [← List.takeWhile_append_dropWhile (p := isWS) (l := l)]
      exact containsL_append_ws_left h0 t hh0' _ _
        (fun x hx => List.mem_takeWhile_imp hx)
    have hdecomp : l.dropWhile isWS =
        trimL l ++ ((l.dropWhile isWS).reverse.takeWhile isWS).reverse := by
      unfold trimL
      conv =>
        lhs
        rw [← List.reverse_reverse (l.dropWhile isWS),
          ← List.takeWhile_append_dropWhile (p := isWS)
            (l := (l.dropWhile isWS).reverse)]
      rw [List.reverse_append]
    have step2 : containsL (h0 :: t) (l.dropWhile isWS) =
        containsL (h0 :: t) (trimL l) := by
      rw [hdecomp]
      exact containsL_append_ws_right hlc hgl hlc' _ _
        (fun x hx => List.mem_takeWhile_imp (List.mem_reverse.mp hx))
    rw [step1, step2]

/-- the sentence filter expressed as a function of the sentence's
normalized form. -/
def normFilter (nl : List Char) : Bool :=
  (OBLIGATION_VERBS.any fun kw => containsL kw.data nl) ||
  (SYSTEM_KEYWORDS.any fun kw => containsL kw.data nl) ||
  (TRAINING_KEYWORDS.any fun kw => containsL kw.data nl) ||
  (STORAGE_KEYWORDS.any fun kw => containsL kw.data nl)

theorem any_containsL_trim (L : List String)
    (hL : L.all (fun kw => goodNeedle kw.data) = true) (l : List Char) :
    (L.any fun kw => containsL kw.data l) =
      (L.any fun kw => containsL kw.data (trimL l)) := by
  induction L with
  | nil => rfl
  | cons kw t ih =>
    rw [List.all_cons] at hL
    obtain ⟨h1, h2⟩ := Bool.and_eq_true_iff.mp hL
    rw [List.any_cons, List.any_cons, containsL_trim_of_good kw.data h1 l, ih h2]

/-- the keyword filter only depends on the normalized
(case-folded, trimmed) sentence: every keyword has non-whitespace edge
characters, so trimming the lowercased sentence does not change any
containment test. -/
theorem requirementSentenceFilter_norm (s : String) :
    requirementSentenceFilter s = normFilter (normSentence s).data := by
  show ((OBLIGATION_VERBS.any fun kw => containsL kw.data (lowerL s.data)) ||
      (SYSTEM_KEYWORDS.any fun kw => containsL kw.data (lowerL s.data)) ||
      (TRAINING_KEYWORDS.any fun kw => containsL kw.data (lowerL s.data)) ||
      (STORAGE_KEYWORDS.any fun kw => containsL kw.data (lowerL s.data))) =
    normFilter (trimL (lowerL s.data))
  rw [any_containsL_trim OBLIGATION_VERBS (by decide) (lowerL s.data),
    any_containsL_trim SYSTEM_KEYWORDS (by decide) (lowerL s.data),
    any_containsL_trim TRAINING_KEYWORDS (by decide) (lowerL s.data),
    any_containsL_trim STORAGE_KEYWORDS (by decide) (lowerL s.data)]
  rfl

/-- restricting the "was it already present before?" scan to the
keyword-filtered before-sentences is harmless: a before-sentence with the
same normalized form as a filtered after-sentence passes the filter
itself. -/
theorem any_filter_norm (L : List String) (s : String)
    (hfs : requirementSentenceFilter s = true) :
    ((L.filter requirementSentenceFilter).any fun bs =>
      decide (normSentence bs = normSentence s)) =
    (L.any fun bs => decide (normSentence bs = normSentence s)) := by
  induction L with
  | nil => rfl
  | cons b t ih =>
    by_cases hb : requirementSentenceFilter b = true
    · rw [List.filter_cons_of_pos hb, List.any_cons, List.any_cons, ih]
    · rw [List.filter_cons_of_neg (by simpa using hb), List.any_cons, ih]
      have hne : (decide (normSentence b = normSentence s)) = false := by
        rw [decide_eq_false_iff_not]
        intro he
        apply hb
        rw [requirementSentenceFilter_norm b, he, ← requirementSentenceFilter_norm s]
        exact hfs
      rw [hne, Bool.false_or]

/-- Modelled from the spec's words (§4.2, C7's sentence): the texts that
survive for a `modified` chunk are the after-text sentences that contain
an obligation verb, a system keyword, a training keyword or a storage
keyword, and whose normalized (case-folded, trimmed) form does not appear
verbatim among the (all, unfiltered) before-text sentences.  This is the
comparison target for `extractRequirementsFromChunks`. -/
def specNewRequirementTexts (beforeText afterText : String) : List String :=
  (splitSentences afterText).filter fun s =>
    requirementSentenceFilter s &&
      !((splitSentences beforeText).any fun bs =>
        decide (normSentence bs = normSentence s))

theorem chunkRequirements_isNew (chunk : DiffChunk) :
    (chunkRequirements chunk).all (fun r => r.isNew) = true := by
  rw [List.all_eq_true]
  intro r hr
  unfold chunkRequirements at hr
  split at hr
  · split at hr
    · cases hr
    · simp only [List.mem_map] at hr
      obtain ⟨t, ht, hft⟩ := hr
      rw [← hft]
  · split at hr
    · cases hr
    · simp only [List.mem_map] at hr
      obtain ⟨t, ht, hft⟩ := hr
      rw [← hft]
  · cases hr

/-- C7 — for every `modified` diff chunk, the requirement statements
produced by `extractRequirementsFromChunks` are exactly (in order) the
after-text sentences that contain an obligation verb, a system keyword, a
training keyword or a storage keyword and whose normalized (case-folded,
trimmed) form does not appear verbatim among the before-text's sentences
(`specNewRequirementTexts`, written from the spec's words); and every
produced statement has `isNew = true`.  (The source scans only the
keyword-filtered before-sentences; `any_filter_norm` shows this is
equivalent to scanning all of them.) -/
theorem c7_modified_chunk_requirements (pc nc : String)
    (before after location : Option String) :
    ((extractRequirementsFromChunks
        [{ type := DiffType.modified, before := before, after := after,
           location := location }] pc nc).map (fun r => r.text) =
      specNewRequirementTexts (before.getD "") (after.getD "")) ∧
    (extractRequirementsFromChunks
        [{ type := DiffType.modified, before := before, after := after,
           location := location }] pc nc).all (fun r => r.isNew) = true := by
  have hss : splitSentences "" = [""] := rfl
  have h0 : requirementSentenceFilter "" = false := by decide
  have hchunk : ∀ c : DiffChunk,
      extractRequirementsFromChunks [c] pc nc = chunkRequirements c := by
    intro c
    simp [extractRequirementsFromChunks]
  constructor
  · rw [hchunk]
    have hemptyR : ∀ b : Option String, specNewRequirementTexts (b.getD "") "" = [] := by
      intro b
      unfold specNewRequirementTexts
      rw [hss]
      simp [h0]
    cases after with
    | none => exact (hemptyR before).symm
    | some a =>
      by_cases ha : a = ""
      · subst ha
        have hred : chunkRequirements
            { type := DiffType.modified, before := before, after := some "",
              location := location } = [] := rfl
        rw [hred]
        exact (hemptyR before).symm
      · have hred : chunkRequirements
            { type := DiffType.modified, before := before, after := some a,
              location := location } =
            if a = "" then []
            else
              ((extractRequirementSentences a).filter fun sentence =>
                !((if jsTruthyStr before then
                    extractRequirementSentences (before.getD "") else []).any
                  fun bs => decide (normSentence bs = normSentence sentence))).map
                (fun sentence =>
                  { text := sentence, beforeText := before, afterText := some a,
                    category := categorizeRequirement sentence,
                    appliesTo := extractAppliesTo sentence,
                    location := location, isNew := true }) := rfl
        rw [hred, if_neg ha, List.map_map]
        show List.map (fun s => s) _ = _
        rw [List.map_id']
        show List.filter _ (List.filter requirementSentenceFilter (splitSentences a)) = _
        rw [List.filter_filter]
        unfold specNewRequirementTexts
        apply List.filter_congr
        intro s _
        by_cases hrf : requirementSentenceFilter s = true
        · rw [hrf, Bool.and_true, Bool.true_and]
          have hbs : (if jsTruthyStr before then
              extractRequirementSentences (before.getD "") else []) =
              (splitSentences (before.getD "")).filter requirementSentenceFilter := by
            cases before with
            | none => simp [jsTruthyStr]; decide
            | some b =>
              by_cases hb : b = ""
              · subst hb
                simp [jsTruthyStr]
                decide
              · simp [jsTruthyStr, hb]
                rfl
          rw [hbs, any_filter_norm _ s hrf]
        · have hrf2 : requirementSentenceFilter s = false := by
            cases hx : requirementSentenceFilter s
            · rfl
            · exact absurd hx hrf
          rw [hrf2, Bool.and_false, Bool.false_and]
  · rw [hchunk]
    exact chunkRequirements_isNew _

end TrainLoop
